import Mathlib

/-!
# Verification of the `ai-coach` feature-extraction and aggregation core

This file gives a shallow embedding of the repository's "hard core":

* `src/feasy/decorator.py` — the `multiple` decorator factory that validates a
  feature spec and attaches it to a feature function;
* `src/feasy/sparkle.py` — the `Sparkle` batch extractor (`_extract`,
  `to_matrix`, `_matrix_to_df`, `to_pandas`), including the behaviour of the
  pandas calls it delegates to (`pd.DataFrame(matrix, columns=...)` and
  `DataFrame.astype`), which is modelled explicitly since the repository's
  semantics at the error boundaries is exactly the pandas semantics;
* `src/utils.py` — `create_student_features` and its inner `slope_and_count`.

Machine floats are modelled as exact rationals (`ℚ`); Python `int` as `ℤ`.
All definitions are executable so that concrete witnesses evaluate by `decide`.
-/

set_option linter.unusedVariables false

namespace AICoach

/-! ## Values and dtypes for the batch extractor

A `Val` is a Python value flowing through feature extraction; `vna` models the
`NaN`/`None` filler pandas inserts for missing entries of ragged rows.
`PDtype` models the primitive Python type objects (`int`, `float`, `str`,
`bool`) used as declared column dtypes by the feature specs in this repo. -/

inductive Val : Type where
  | vint (n : ℤ)
  | vfloat (q : ℚ)
  | vstr (s : String)
  | vbool (b : Bool)
  | vna
deriving DecidableEq, Repr

inductive PDtype : Type where
  | pint
  | pfloat
  | pstr
  | pbool
deriving DecidableEq, Repr

/-- A decorated feature function as consumed by `Sparkle`: a display name, the
attached `schema` (list of (column name, dtype) pairs) and the underlying
callable returning a list of values per record. -/
structure FFunc (α : Type) : Type where
  name : String
  schema : List (String × PDtype)
  fn : α → List Val

/-- `_extract(proto, funcs)` from `sparkle.py`: apply each feature function to
the record and extend one flat result list. -/
def extractRow {α : Type} (proto : α) (funcs : List (FFunc α)) : List Val :=
  funcs.foldl (fun result g => result ++ g.fn proto) []

/-- `Sparkle.to_matrix`: `tuple(zip(*map(extractor, data)))`.  Every per-record
tuple has exactly `funcs.length` components, so Python's `zip(*·)` yields `()`
for an empty dataset and otherwise one entry per group, each entry being the
group's row-vectors in dataset order. -/
def to_matrix {α : Type} (funcs : List (List (FFunc α))) (data : List α) :
    List (List (List Val)) :=
  match data with
  | [] => []
  | _ :: _ => funcs.map (fun g => data.map (fun proto => extractRow proto g))

/-- Errors produced at the pandas boundary inside `_matrix_to_df`:
`columnsMismatch` models the `ValueError` raised by
`pd.DataFrame(matrix, columns=...)` ("{expected} columns passed, passed data
had {actual} columns"); `castError` models the `ValueError`/`TypeError` raised
by `astype` when a value cannot be converted, which carries the offending value
and the target type (but no column name); `emptySchema` models the unpacking
`ValueError` of `zip(*all_schemas)` when every schema is empty. -/
inductive PdError : Type where
  | columnsMismatch (expected actual : Nat)
  | castError (v : Val) (t : PDtype)
  | emptySchema
deriving DecidableEq, Repr

/-- Decidable equality for `Except` results, so that concrete runs of the
embedded pipeline can be checked by `decide`. -/
instance exceptDecEq {ε α : Type} [DecidableEq ε] [DecidableEq α] :
    DecidableEq (Except ε α) := fun x y =>
  match x, y with
  | .error a, .error b =>
    match decEq a b with
    | isTrue h => isTrue (by rw [h])
    | isFalse h => isFalse (by intro hh; cases hh; exact h rfl)
  | .error a, .ok b => isFalse (by intro hh; cases hh)
  | .ok a, .error b => isFalse (by intro hh; cases hh)
  | .ok a, .ok b =>
    match decEq a b with
    | isTrue h => isTrue (by rw [h])
    | isFalse h => isFalse (by intro hh; cases hh; exact h rfl)

/-- A materialized pandas DataFrame: named columns plus row-major data. -/
structure PdDF : Type where
  colNames : List String
  rows : List (List Val)
deriving DecidableEq, Repr

/-- Width pandas assigns to a list-of-lists: the maximum row length
(`lib.to_object_array` pads shorter rows). -/
def matWidth (m : List (List Val)) : Nat :=
  (m.map List.length).foldr max 0

/-- Pad a row to width `w` with the `NaN`/`None` filler. -/
def padRow (w : Nat) (r : List Val) : List Val :=
  r ++ List.replicate (w - r.length) Val.vna

/-- Truncation toward zero, the semantics of Python's `int(float)` used by
`astype` when casting floats to int64. -/
def qTrunc (q : ℚ) : ℤ :=
  if 0 ≤ q then ⌊q⌋ else ⌈q⌉

/-- `str(x)` for the modelled values (float rendering is abstracted; no claim
casts a numeric value to `str`). -/
def pyStr : Val → String
  | .vint n => toString n
  | .vfloat q => toString q
  | .vstr s => s
  | .vbool b => if b then "True" else "False"
  | .vna => "nan"

/-- `astype` cast of one value to one declared dtype, following pandas/NumPy
object-array semantics: casts that succeed do so silently (in particular
`float → int` truncates toward zero); impossible casts raise, carrying the
offending value.  Decimal-string parsing is abstracted to integer literals
(no claim feeds decimal strings to a numeric cast). -/
def castVal : Val → PDtype → Except PdError Val
  | v, .pstr => .ok (.vstr (pyStr v))
  | .vint n, .pint => .ok (.vint n)
  | .vfloat q, .pint => .ok (.vint (qTrunc q))
  | .vbool b, .pint => .ok (.vint (if b then 1 else 0))
  | .vstr s, .pint =>
    match s.toInt? with
    | some n => .ok (.vint n)
    | none => .error (.castError (.vstr s) .pint)
  | .vna, .pint => .error (.castError .vna .pint)
  | .vint n, .pfloat => .ok (.vfloat (n : ℚ))
  | .vfloat q, .pfloat => .ok (.vfloat q)
  | .vbool b, .pfloat => .ok (.vfloat (if b then 1 else 0))
  | .vstr s, .pfloat =>
    match s.toInt? with
    | some n => .ok (.vfloat (n : ℚ))
    | none => .error (.castError (.vstr s) .pfloat)
  | .vna, .pfloat => .ok .vna
  | .vbool b, .pbool => .ok (.vbool b)
  | .vint n, .pbool => .ok (.vbool (decide (n ≠ 0)))
  | .vfloat q, .pbool => .ok (.vbool (decide (q ≠ 0)))
  | .vstr s, .pbool => .ok (.vbool (decide (s ≠ "")))
  | .vna, .pbool => .ok (.vbool true)

/-- `type_mapping = dict(zip(column_names, column_types))`: the dtype a column
name is mapped to (later duplicates win, as in a Python dict). -/
def schemaTypeFor (schemas : List (String × PDtype)) (nm : String) : PDtype :=
  (schemas.reverse.lookup nm).getD .pstr

/-- Sequential `map` over a list in the `Except` monad, aborting at the first
error — the iteration order of Python's column-wise/row-wise processing. -/
def exceptMap {ε α β : Type} (f : α → Except ε β) : List α → Except ε (List β)
  | [] => .ok []
  | x :: xs =>
    match f x with
    | .error e => .error e
    | .ok b =>
      match exceptMap f xs with
      | .error e => .error e
      | .ok bs => .ok (b :: bs)

/-- `df.astype(type_mapping)` applied to one row: each cell is cast to the
dtype mapped to its column's name. -/
def castRow (schemas : List (String × PDtype)) (r : List Val) :
    Except PdError (List Val) :=
  exceptMap (fun p => castVal p.1 (schemaTypeFor schemas p.2)) (r.zip (schemas.map Prod.fst))

/-- `Sparkle._matrix_to_df`: materialize one group's matrix.  With no functions
it returns `pd.DataFrame(matrix)` (integer-named columns); otherwise it
concatenates the schemas, builds the named DataFrame (raising the pandas
column-count `ValueError` on width mismatch) and casts via `astype`. -/
def matrix_to_df {α : Type} (matrix : List (List Val)) (funcs : List (FFunc α)) :
    Except PdError PdDF :=
  if funcs.isEmpty then
    .ok ⟨(List.range (matWidth matrix)).map toString,
         matrix.map (padRow (matWidth matrix))⟩
  else
    let schemas := (funcs.map FFunc.schema).flatten
    if schemas.isEmpty then .error .emptySchema
    else
      let names := schemas.map Prod.fst
      if matrix.isEmpty then .ok ⟨names, []⟩
      else if names.length = matWidth matrix then
        match exceptMap (castRow schemas) (matrix.map (padRow (matWidth matrix))) with
        | .ok rs => .ok ⟨names, rs⟩
        | .error e => .error e
      else .error (.columnsMismatch names.length (matWidth matrix))

/-- Result shape of `Sparkle.to_pandas`: a bare DataFrame when exactly one
result was produced, otherwise a tuple of DataFrames. -/
inductive PdResult : Type where
  | single (df : PdDF)
  | tuple (dfs : List PdDF)
deriving DecidableEq, Repr

/-- `Sparkle.to_pandas`: materialize every group
(`tuple(starmap(_matrix_to_df, zip(feature_matrix, funcs)))`, left to right),
then unwrap iff exactly one DataFrame resulted. -/
def to_pandas {α : Type} (funcs : List (List (FFunc α))) (data : List α) :
    Except PdError PdResult :=
  let feature_matrix := to_matrix funcs data
  match exceptMap (fun p => matrix_to_df p.1 p.2) (feature_matrix.zip funcs) with
  | .error e => .error e
  | .ok dfs =>
    match dfs with
    | [d] => .ok (.single d)
    | _ => .ok (.tuple dfs)

/-! ## The `multiple` decorator factory (`decorator.py`)

The decorator validates a dynamically-typed `params` list before touching the
decorated function, raising on the first malformed entry.  Python values that
can occur inside `params` are modelled by `PyObj`. -/

inductive PyObj : Type where
  | pystr (s : String)
  | pyint (n : ℤ)
  | pytype (t : PDtype)
  | pytuple (xs : List PyObj)
  | pylist (xs : List PyObj)
  | pynone

/-- `isinstance(p, (tuple, list)) and len(p) == 2`, together with the
`name, dtype = p` unpacking. -/
def pairElems : PyObj → Option (PyObj × PyObj)
  | .pytuple [a, b] => some (a, b)
  | .pylist [a, b] => some (a, b)
  | _ => none

/-- `isinstance(name, str)`. -/
def isPyStr : PyObj → Bool
  | .pystr _ => true
  | _ => false

/-- `isinstance(dtype, (type, str))`. -/
def isTypeOrStr : PyObj → Bool
  | .pytype _ => true
  | .pystr _ => true
  | _ => false

/-- The three `Exception`s raised by the validation loop of `multiple`, which
name the index of the offending entry (and, for a bad dtype, the feature
name). -/
inductive SchemaErrorKind : Type where
  | badPairShape (i : Nat)
  | badName (i : Nat)
  | badDtype (i : Nat) (name : String)
deriving DecidableEq, Repr

/-- The `for i, p in enumerate(params)` validation loop of `multiple`. -/
def checkParams : Nat → List PyObj → Except SchemaErrorKind Unit
  | _, [] => .ok ()
  | i, p :: rest =>
    match pairElems p with
    | none => .error (.badPairShape i)
    | some (nm, dt) =>
      match nm with
      | .pystr s =>
        if isTypeOrStr dt then checkParams (i + 1) rest
        else .error (.badDtype i s)
      | _ => .error (.badName i)

def validateParams (params : List PyObj) : Except SchemaErrorKind Unit :=
  checkParams 0 params

/-- A claim-level description of a well-formed spec entry: a 2-element
pair/list whose first component is a string and whose second is a type object
or a string. -/
def entryOk (p : PyObj) : Bool :=
  match pairElems p with
  | some (nm, dt) => isPyStr nm && isTypeOrStr dt
  | none => false

/-- A function decorated by `multiple`: the factory attaches `f.name`
(the function's own `__name__`) and `f.schema = params`, returning `f`
itself. -/
structure PyFFunc (α : Type) : Type where
  name : String
  schema : List PyObj
  fn : α → List Val

/-- `multiple(params)` applied to a function named `fname` with body `f`.
Validation runs inside the factory, before the decorator ever sees `f`. -/
def multiple {α : Type} (params : List PyObj) (fname : String) (f : α → List Val) :
    Except SchemaErrorKind (PyFFunc α) :=
  match validateParams params with
  | .error e => .error e
  | .ok _ => .ok ⟨fname, params, f⟩

/-! ## Helper lemmas -/

theorem entryOk_of_pairElems {p nm dt : PyObj} (h : pairElems p = some (nm, dt)) :
    entryOk p = (isPyStr nm && isTypeOrStr dt) := by
  unfold entryOk
  rw [h]

theorem entryOk_of_pairElems_none {p : PyObj} (h : pairElems p = none) :
    entryOk p = false := by
  unfold entryOk
  rw [h]

theorem checkParams_ok_iff (params : List PyObj) :
    ∀ i, checkParams i params = .ok () ↔ ∀ p ∈ params, entryOk p = true := by
  induction params with
  | nil => intro i; simp [checkParams]
  | cons p rest ih =>
    intro i
    cases hpe : pairElems p with
    | none =>
      simp only [checkParams, hpe, List.mem_cons]
      constructor
      · intro h; cases h
      · intro h
        have := h p (Or.inl rfl)
        rw [entryOk_of_pairElems_none hpe] at this
        cases this
    | some nmdt =>
      obtain ⟨nm, dt⟩ := nmdt
      have hok := entryOk_of_pairElems hpe
      cases nm with
      | pystr s =>
        simp only [checkParams, hpe]
        by_cases hdt : isTypeOrStr dt = true
        · rw [if_pos hdt, ih (i + 1)]
          constructor
          · intro h q hq
            rcases List.mem_cons.mp hq with rfl | hq'
            · rw [hok, hdt]; rfl
            · exact h q hq'
          · intro h q hq
            exact h q (List.mem_cons_of_mem _ hq)
        · rw [if_neg hdt]
          constructor
          · intro h; cases h
          · intro h
            have := h p (List.mem_cons_self _ _)
            rw [hok] at this
            simp only [Bool.and_eq_true] at this
            exact absurd this.2 hdt
      | pyint n =>
        simp only [checkParams, hpe]
        constructor
        · intro h; cases h
        · intro h
          have := h p (List.mem_cons_self _ _)
          rw [hok] at this
          simp [isPyStr] at this
      | pytype t =>
        simp only [checkParams, hpe]
        constructor
        · intro h; cases h
        · intro h
          have := h p (List.mem_cons_self _ _)
          rw [hok] at this
          simp [isPyStr] at this
      | pytuple xs =>
        simp only [checkParams, hpe]
        constructor
        · intro h; cases h
        · intro h
          have := h p (List.mem_cons_self _ _)
          rw [hok] at this
          simp [isPyStr] at this
      | pylist xs =>
        simp only [checkParams, hpe]
        constructor
        · intro h; cases h
        · intro h
          have := h p (List.mem_cons_self _ _)
          rw [hok] at this
          simp [isPyStr] at this
      | pynone =>
        simp only [checkParams, hpe]
        constructor
        · intro h; cases h
        · intro h
          have := h p (List.mem_cons_self _ _)
          rw [hok] at this
          simp [isPyStr] at this

theorem exceptMap_ok_spec {ε α β : Type} (f : α → Except ε β) :
    ∀ (xs : List α) (ys : List β), exceptMap f xs = .ok ys →
      ys.length = xs.length ∧
        ∀ (j : Nat) (x : α) (y : β), xs[j]? = some x → ys[j]? = some y → f x = .ok y := by
  intro xs
  induction xs with
  | nil =>
    intro ys h
    simp only [exceptMap, Except.ok.injEq] at h
    subst h
    simp
  | cons x xs ih =>
    intro ys h
    simp only [exceptMap] at h
    cases hx : f x with
    | error e => rw [hx] at h; cases h
    | ok b =>
      rw [hx] at h
      cases hxs : exceptMap f xs with
      | error e => rw [hxs] at h; cases h
      | ok bs =>
        rw [hxs] at h
        cases h
        obtain ⟨hlen, hget⟩ := ih bs hxs
        refine ⟨by simp [hlen], ?_⟩
        intro j a y hja hjy
        cases j with
        | zero =>
          simp only [List.getElem?_cons_zero, Option.some.injEq] at hja hjy
          subst hja; subst hjy; exact hx
        | succ j =>
          simp only [List.getElem?_cons_succ] at hja hjy
          exact hget j a y hja hjy

theorem exceptMap_error_spec {ε α β : Type} (f : α → Except ε β) :
    ∀ (xs : List α) (e : ε), exceptMap f xs = .error e → ∃ x ∈ xs, f x = .error e := by
  intro xs
  induction xs with
  | nil =>
    intro e h
    simp only [exceptMap] at h
    cases h
  | cons x xs ih =>
    intro e h
    simp only [exceptMap] at h
    cases hx : f x with
    | error e' =>
      rw [hx] at h
      cases h
      exact ⟨x, List.mem_cons_self _ _, hx⟩
    | ok b =>
      rw [hx] at h
      cases hxs : exceptMap f xs with
      | error e' =>
        obtain ⟨y, hy, hye⟩ := ih e' hxs
        rw [hxs] at h
        cases h
        exact ⟨y, List.mem_cons_of_mem _ hy, hye⟩
      | ok bs => rw [hxs] at h; cases h

theorem extractRow_eq_flatten {α : Type} (proto : α) (funcs : List (FFunc α)) :
    extractRow proto funcs = (funcs.map (fun g => g.fn proto)).flatten := by
  suffices h : ∀ (fs : List (FFunc α)) (acc : List Val),
      fs.foldl (fun result g => result ++ g.fn proto) acc =
        acc ++ (fs.map (fun g => g.fn proto)).flatten by
    simpa using h funcs []
  intro fs
  induction fs with
  | nil => intro acc; simp
  | cons g fs ih => intro acc; simp [List.foldl_cons, ih]

theorem extractRow_length {α : Type} (proto : α) (funcs : List (FFunc α))
    (h : ∀ fn ∈ funcs, (fn.fn proto).length = fn.schema.length) :
    (extractRow proto funcs).length = ((funcs.map FFunc.schema).flatten).length := by
  rw [extractRow_eq_flatten, List.length_flatten, List.length_flatten]
  congr 1
  rw [List.map_map, List.map_map]
  exact List.map_congr_left fun fn hfn => h fn hfn

theorem matWidth_const (m : List (List Val)) (w : Nat)
    (hne : m ≠ []) (h : ∀ r ∈ m, r.length = w) : matWidth m = w := by
  induction m with
  | nil => exact absurd rfl hne
  | cons r m ih =>
    rcases m with _ | ⟨r', m'⟩
    · simp [matWidth, h r (by simp)]
    · have hm : matWidth (r' :: m') = w := by
        apply ih (by simp)
        intro x hx; exact h x (by simp [hx])
      simp only [matWidth, List.map_cons, List.foldr_cons] at hm ⊢
      rw [hm, h r (by simp), Nat.max_self]

theorem padRow_of_length (w : Nat) (r : List Val) (h : r.length = w) :
    padRow w r = r := by
  simp [padRow, h]

theorem zip_map_self {α β : Type} (F : α → β) (l : List α) :
    (l.map F).zip l = l.map (fun a => (F a, a)) := by
  induction l with
  | nil => rfl
  | cons a t ih => simp only [List.map_cons, List.zip_cons_cons, ih]

theorem to_pandas_cons {α : Type} (funcs : List (List (FFunc α))) (d : α) (ds : List α) :
    to_pandas funcs (d :: ds) =
      match exceptMap (fun p => matrix_to_df p.1 p.2)
          ((funcs.map (fun gj => (d :: ds).map (fun p => extractRow p gj))).zip funcs) with
      | .error e => .error e
      | .ok dfs =>
        match dfs with
        | [df] => .ok (.single df)
        | _ => .ok (.tuple dfs) := rfl

/-- Shared success analysis of `to_pandas` on a non-empty dataset: one
DataFrame per group, each produced by `_matrix_to_df` from that group's slice
of the matrix, unwrapped iff exactly one resulted. -/
theorem to_pandas_ok_spec {α : Type} (funcs : List (List (FFunc α))) (data : List α)
    (hd : data ≠ []) (r : PdResult) (h : to_pandas funcs data = .ok r) :
    ∃ dfs : List PdDF, dfs.length = funcs.length ∧
      (∀ (j : Nat) (gj : List (FFunc α)) (dfj : PdDF),
        funcs[j]? = some gj → dfs[j]? = some dfj →
          matrix_to_df (data.map (fun p => extractRow p gj)) gj = .ok dfj) ∧
      ((dfs.length = 1 → ∃ df, dfs = [df] ∧ r = .single df) ∧
        (dfs.length ≠ 1 → r = .tuple dfs)) := by
  obtain ⟨d, ds, rfl⟩ : ∃ d ds, data = d :: ds := by
    cases data with
    | nil => exact absurd rfl hd
    | cons d ds => exact ⟨d, ds, rfl⟩
  rw [to_pandas_cons,
    zip_map_self (fun gj => (d :: ds).map (fun p => extractRow p gj)) funcs] at h
  cases hee : exceptMap (fun p => matrix_to_df p.1 p.2)
      (funcs.map (fun gj => ((d :: ds).map (fun p => extractRow p gj), gj))) with
  | error e => rw [hee] at h; cases h
  | ok dfs =>
    rw [hee] at h
    obtain ⟨hlen, hget⟩ := exceptMap_ok_spec _ _ _ hee
    rw [List.length_map] at hlen
    refine ⟨dfs, hlen, ?_, ?_, ?_⟩
    · intro j gj dfj hj hdfj
      have hpair : (funcs.map
          (fun gj => ((d :: ds).map (fun p => extractRow p gj), gj)))[j]? =
            some ((d :: ds).map (fun p => extractRow p gj), gj) := by
        rw [List.getElem?_map, hj]; rfl
      exact hget j _ dfj hpair hdfj
    · intro h1
      obtain ⟨df, rfl⟩ : ∃ df, dfs = [df] := by
        cases dfs with
        | nil => cases h1
        | cons a t =>
          cases t with
          | nil => exact ⟨a, rfl⟩
          | cons b t2 => simp at h1
      cases h
      exact ⟨df, rfl, rfl⟩
    · intro h1
      cases dfs with
      | nil => cases h; rfl
      | cons a t =>
        cases t with
        | nil => exact absurd rfl h1
        | cons b t2 => cases h; rfl

/-- C10: on an empty dataset `to_pandas` returns the empty tuple — for any
number of feature groups, including exactly one, so the single-group unwrap
does not apply at this edge (`tuple(zip(*[])) == ()`). -/
theorem to_pandas_empty_dataset {α : Type} (funcs : List (List (FFunc α))) :
    to_pandas funcs ([] : List α) = .ok (.tuple []) := rfl

/-- C5: on a non-empty dataset, a successful extraction with exactly one group
returns that group's table bare (`.single`), and with two or more groups
returns a tuple of tables, one per group, in the order the groups were
supplied. -/
theorem to_pandas_group_unwrap {α : Type} (g : List (FFunc α))
    (groups : List (List (FFunc α))) (data : List α) (hd : data ≠ []) :
    (∀ r, to_pandas [g] data = .ok r →
       ∃ df, r = .single df ∧
         matrix_to_df (data.map (fun p => extractRow p g)) g = .ok df) ∧
    (2 ≤ groups.length → ∀ r, to_pandas groups data = .ok r →
       ∃ dfs, r = .tuple dfs ∧ dfs.length = groups.length ∧
         ∀ (j : Nat) (gj : List (FFunc α)) (dfj : PdDF),
           groups[j]? = some gj → dfs[j]? = some dfj →
             matrix_to_df (data.map (fun p => extractRow p gj)) gj = .ok dfj) := by
  constructor
  · intro r hr
    obtain ⟨dfs, hlen, hget, hone, -⟩ := to_pandas_ok_spec [g] data hd r hr
    obtain ⟨df, rfl, rfl⟩ := hone (by simpa using hlen)
    exact ⟨df, rfl, hget 0 g df rfl rfl⟩
  · intro h2 r hr
    obtain ⟨dfs, hlen, hget, -, htup⟩ := to_pandas_ok_spec groups data hd r hr
    have hne : dfs.length ≠ 1 := by omega
    exact ⟨dfs, htup hne, hlen, hget⟩

def unwrapFunA : FFunc Unit :=
  ⟨"get_a", [("a", PDtype.pint)], fun _ => [Val.vint 1]⟩

def unwrapFunB : FFunc Unit :=
  ⟨"get_b", [("b", PDtype.pint)], fun _ => [Val.vint 2]⟩

/-- Witness for C5 at a concrete one-record dataset: one group unwraps to a
bare table, two groups give a 2-tuple in group order. -/
theorem to_pandas_group_unwrap_witness :
    (∃ df, PdResult.single ⟨["a"], [[Val.vint 1]]⟩ = .single df ∧
       matrix_to_df ([()].map (fun p => extractRow p [unwrapFunA])) [unwrapFunA] = .ok df) ∧
    (∃ dfs, PdResult.tuple [⟨["a"], [[Val.vint 1]]⟩, ⟨["b"], [[Val.vint 2]]⟩] = .tuple dfs ∧
       dfs.length = ([[unwrapFunA], [unwrapFunB]] : List (List (FFunc Unit))).length ∧
       ∀ (j : Nat) (gj : List (FFunc Unit)) (dfj : PdDF),
         ([[unwrapFunA], [unwrapFunB]] : List (List (FFunc Unit)))[j]? = some gj →
           dfs[j]? = some dfj →
             matrix_to_df ([()].map (fun p => extractRow p gj)) gj = .ok dfj) := by
  constructor
  · exact (to_pandas_group_unwrap [unwrapFunA] [] [()] (List.cons_ne_nil _ _)).1
      (.single ⟨["a"], [[Val.vint 1]]⟩) rfl
  · exact (to_pandas_group_unwrap [] [[unwrapFunA], [unwrapFunB]] [()]
      (List.cons_ne_nil _ _)).2 (by decide)
      (.tuple [⟨["a"], [[Val.vint 1]]⟩, ⟨["b"], [[Val.vint 2]]⟩]) rfl

/-- C6: for a group whose functions honour their declared arities, a
successfully materialized table has exactly the concatenated spec names as
columns (in declaration order), one column per declared spec entry, and one
row per dataset record in dataset order, each row being the cast of that
record's concatenated extraction. -/
theorem matrix_to_df_shape {α : Type} (g : List (FFunc α)) (data : List α) (df : PdDF)
    (hg : g ≠ [])
    (harity : ∀ p ∈ data, ∀ fn ∈ g, (fn.fn p).length = fn.schema.length)
    (hok : matrix_to_df (data.map (fun p => extractRow p g)) g = .ok df) :
    df.colNames = ((g.map FFunc.schema).flatten).map Prod.fst ∧
    df.colNames.length = (g.map (fun fn => fn.schema.length)).sum ∧
    df.rows.length = data.length ∧
    ∀ (j : Nat) (p : α), data[j]? = some p →
      ∃ row, df.rows[j]? = some row ∧
        castRow ((g.map FFunc.schema).flatten) (extractRow p g) = .ok row := by
  have hnames : (((g.map FFunc.schema).flatten).map Prod.fst).length =
      (g.map (fun fn => fn.schema.length)).sum := by
    rw [List.length_map, List.length_flatten, List.map_map]
    rfl
  have hgE : g.isEmpty = false := by
    cases g with
    | nil => exact absurd rfl hg
    | cons a b => rfl
  simp only [matrix_to_df, hgE, Bool.false_eq_true, if_false] at hok
  by_cases hsE : ((g.map FFunc.schema).flatten).isEmpty = true
  · rw [if_pos hsE] at hok; cases hok
  · rw [if_neg hsE] at hok
    cases data with
    | nil =>
      simp only [List.map_nil, List.isEmpty_nil, if_true] at hok
      cases hok
      refine ⟨rfl, hnames, rfl, ?_⟩
      intro j p hj
      simp at hj
    | cons d ds =>
      have hw : matWidth ((d :: ds).map (fun p => extractRow p g)) =
          ((g.map FFunc.schema).flatten).length := by
        apply matWidth_const
        · simp
        · intro r hr
          obtain ⟨p, hp, rfl⟩ := List.mem_map.mp hr
          exact extractRow_length p g (harity p hp)
      have hmE : ((d :: ds).map (fun p => extractRow p g)).isEmpty = false := rfl
      rw [hmE] at hok
      simp only [Bool.false_eq_true, if_false] at hok
      rw [hw, List.length_map] at hok
      rw [if_pos rfl] at hok
      cases hee : exceptMap (castRow ((g.map FFunc.schema).flatten))
          (((d :: ds).map (fun p => extractRow p g)).map
            (padRow (((g.map FFunc.schema).flatten).length))) with
      | error e => rw [hee] at hok; cases hok
      | ok rs =>
        rw [hee] at hok
        cases hok
        obtain ⟨hlen, hget⟩ := exceptMap_ok_spec _ _ _ hee
        rw [List.length_map, List.length_map] at hlen
        refine ⟨rfl, hnames, hlen, ?_⟩
        intro j p hj
        have hjlt : j < (d :: ds).length := by
          rcases List.getElem?_eq_some.mp hj with ⟨hlt, -⟩
          exact hlt
        have hrow : rs[j]? = some (rs.get ⟨j, by rw [hlen]; exact hjlt⟩) :=
          List.getElem?_eq_getElem _
        refine ⟨rs.get ⟨j, by rw [hlen]; exact hjlt⟩, hrow, ?_⟩
        have hmj : (((d :: ds).map (fun p => extractRow p g)).map
            (padRow (((g.map FFunc.schema).flatten).length)))[j]? =
              some (padRow (((g.map FFunc.schema).flatten).length)
                (extractRow p g)) := by
          rw [List.getElem?_map, List.getElem?_map, hj]; rfl
        have := hget j _ _ hmj hrow
        rwa [padRow_of_length _ _
          (extractRow_length p g (harity p (List.getElem?_mem hj)))] at this

def shapeFunA : FFunc Unit :=
  ⟨"fa", [("a", PDtype.pfloat)], fun _ => [Val.vfloat 1]⟩

def shapeFunBC : FFunc Unit :=
  ⟨"fbc", [("b", PDtype.pint), ("c", PDtype.pstr)], fun _ => [Val.vint 2, Val.vstr "x"]⟩

/-- Witness for C6: the spec's example — specs `[("a", float)]` and
`[("b", int), ("c", str)]` give columns `["a", "b", "c"]`, three columns, and
two rows (in order) for a two-record dataset. -/
theorem matrix_to_df_shape_witness :
    (PdDF.mk ["a", "b", "c"]
        [[Val.vfloat 1, Val.vint 2, Val.vstr "x"],
         [Val.vfloat 1, Val.vint 2, Val.vstr "x"]]).colNames =
      ((([shapeFunA, shapeFunBC]).map FFunc.schema).flatten).map Prod.fst ∧
    (PdDF.mk ["a", "b", "c"]
        [[Val.vfloat 1, Val.vint 2, Val.vstr "x"],
         [Val.vfloat 1, Val.vint 2, Val.vstr "x"]]).colNames.length =
      (([shapeFunA, shapeFunBC]).map (fun fn => fn.schema.length)).sum ∧
    (PdDF.mk ["a", "b", "c"]
        [[Val.vfloat 1, Val.vint 2, Val.vstr "x"],
         [Val.vfloat 1, Val.vint 2, Val.vstr "x"]]).rows.length =
      ([(), ()] : List Unit).length ∧
    ∀ (j : Nat) (p : Unit), ([(), ()] : List Unit)[j]? = some p →
      ∃ row, (PdDF.mk ["a", "b", "c"]
          [[Val.vfloat 1, Val.vint 2, Val.vstr "x"],
           [Val.vfloat 1, Val.vint 2, Val.vstr "x"]]).rows[j]? = some row ∧
        castRow ((([shapeFunA, shapeFunBC]).map FFunc.schema).flatten)
          (extractRow p [shapeFunA, shapeFunBC]) = .ok row :=
  matrix_to_df_shape [shapeFunA, shapeFunBC] [(), ()] _
    (List.cons_ne_nil _ _) (by decide) rfl

def arityFunOver : FFunc Unit :=
  ⟨"over_returner", [("a", PDtype.pfloat)], fun _ => [Val.vfloat 1, Val.vfloat 2]⟩

def arityFunUnder : FFunc Unit :=
  ⟨"under_returner", [("b", PDtype.pint)], fun _ => []⟩

/-- C3 counterexample: a group containing a function whose returned list is
longer than its declared spec (and another whose list is shorter) extracts
SUCCESSFULLY — the offsetting mismatches leave the combined row width equal to
the declared column count, so materialization raises nothing at all, let alone
an error naming the offending function. -/
theorem arity_mismatch_undetected :
    (arityFunOver.fn ()).length ≠ arityFunOver.schema.length ∧
    (arityFunUnder.fn ()).length ≠ arityFunUnder.schema.length ∧
    to_pandas [[arityFunOver, arityFunUnder]] [()] =
      .ok (.single ⟨["a", "b"], [[Val.vfloat 1, Val.vint 2]]⟩) := by
  refine ⟨by decide, by decide, ?_⟩
  decide

/-- C3 amended: extraction itself (`to_matrix`) runs to completion over the
whole dataset and never fails; materialization then fails iff the widest
combined row differs from the total declared column count, with a pandas
`ValueError` reporting the expected and actual column counts — it names no
feature function, and offsetting arity mismatches inside one group are not
detected at all. -/
theorem to_pandas_arity_amended {α : Type} (g : List (FFunc α)) (data : List α)
    (hg : g ≠ []) (hs : (g.map FFunc.schema).flatten ≠ []) (hd : data ≠ [])
    (hmis : ((g.map FFunc.schema).flatten).length ≠
        matWidth (data.map (fun p => extractRow p g))) :
    to_matrix [g] data = [data.map (fun p => extractRow p g)] ∧
    to_pandas [g] data =
      .error (.columnsMismatch ((g.map FFunc.schema).flatten).length
        (matWidth (data.map (fun p => extractRow p g)))) := by
  obtain ⟨d, ds, rfl⟩ : ∃ d ds, data = d :: ds := by
    cases data with
    | nil => exact absurd rfl hd
    | cons d ds => exact ⟨d, ds, rfl⟩
  have hgE : g.isEmpty = false := by
    cases g with
    | nil => exact absurd rfl hg
    | cons a b => rfl
  have hsE : ((g.map FFunc.schema).flatten).isEmpty = false := by
    cases hfl : (g.map FFunc.schema).flatten with
    | nil => exact absurd hfl hs
    | cons a b => rfl
  have hmdf : matrix_to_df ((d :: ds).map (fun p => extractRow p g)) g =
      .error (.columnsMismatch ((g.map FFunc.schema).flatten).length
        (matWidth ((d :: ds).map (fun p => extractRow p g)))) := by
    have hmE : ((d :: ds).map (fun p => extractRow p g)).isEmpty = false := rfl
    simp only [matrix_to_df, hgE, Bool.false_eq_true, if_false, hsE, hmE]
    rw [if_neg (by rw [List.length_map]; exact hmis)]
    rw [List.length_map]
  refine ⟨rfl, ?_⟩
  rw [to_pandas_cons]
  have hz : ((([g] : List (List (FFunc α))).map
      (fun gj => (d :: ds).map (fun p => extractRow p gj))).zip [g]) =
        [((d :: ds).map (fun p => extractRow p g), g)] := rfl
  rw [hz]
  simp only [exceptMap, hmdf]

def arityFunShort : FFunc Unit :=
  ⟨"short_returner", [("a", PDtype.pint)], fun _ => []⟩

/-- Witness for the amended C3 at a concrete input: one declared column, an
empty returned row — extraction completes, materialization fails with the
column-count `ValueError` (expected 1, got 0). -/
theorem to_pandas_arity_amended_witness :
    to_matrix [[arityFunShort]] [()] = [[([] : List Val)]] ∧
    to_pandas [[arityFunShort]] [()] = .error (.columnsMismatch 1 0) := by
  have h := to_pandas_arity_amended [arityFunShort] [()]
    (List.cons_ne_nil _ _) (List.cons_ne_nil _ _) (List.cons_ne_nil _ _) (by decide)
  exact h

def truncFun : FFunc Unit :=
  ⟨"trunc_me", [("a", PDtype.pint)], fun _ => [Val.vfloat (mkRat 7 2)]⟩

/-- C4 counterexample: a float 7/2 declared as `int` is SILENTLY truncated to
3 by `astype` — the extraction succeeds and the value changes, contradicting
"the extractor never silently coerces a value". -/
theorem float_truncated_silently :
    to_pandas [[truncFun]] [()] = .ok (.single ⟨["a"], [[Val.vint 3]]⟩) ∧
    mkRat 7 2 ≠ ((3 : ℤ) : ℚ) := by
  constructor
  · decide
  · decide

/-- C4 amended: every `astype` failure carries the offending value and the
declared target type (but no column name), and it is the only cast-related
failure mode; values that CAN be cast are coerced silently — in particular a
float declared `int` is truncated toward zero.  Any error out of
`_matrix_to_df` is the empty-schema unpack error, the column-count error, or
such a cast error. -/
theorem cast_amended {α : Type} :
    (∀ (v : Val) (t : PDtype) (e : PdError), castVal v t = .error e → e = .castError v t) ∧
    (∀ q : ℚ, castVal (.vfloat q) .pint = .ok (.vint (qTrunc q))) ∧
    (∀ (matrix : List (List Val)) (g : List (FFunc α)) (e : PdError),
       matrix_to_df matrix g = .error e →
         e = .emptySchema ∨ (∃ a b, e = .columnsMismatch a b) ∨
           ∃ v t, e = .castError v t ∧ castVal v t = .error (.castError v t)) := by
  have hcv : ∀ (v : Val) (t : PDtype) (e : PdError),
      castVal v t = .error e → e = .castError v t := by
    intro v t e h
    cases v with
    | vint n => cases t <;> (simp only [castVal] at h <;> cases h)
    | vfloat q => cases t <;> (simp only [castVal] at h <;> cases h)
    | vbool b => cases t <;> (simp only [castVal] at h <;> cases h)
    | vstr s =>
      cases t with
      | pint =>
        simp only [castVal] at h
        cases hsi : s.toInt? with
        | some n => rw [hsi] at h; cases h
        | none => rw [hsi] at h; cases h; rfl
      | pfloat =>
        simp only [castVal] at h
        cases hsi : s.toInt? with
        | some n => rw [hsi] at h; cases h
        | none => rw [hsi] at h; cases h; rfl
      | pstr => simp only [castVal] at h; cases h
      | pbool => simp only [castVal] at h; cases h
    | vna =>
      cases t with
      | pint => simp only [castVal] at h; cases h; rfl
      | pfloat => simp only [castVal] at h; cases h
      | pstr => simp only [castVal] at h; cases h
      | pbool => simp only [castVal] at h; cases h
  refine ⟨hcv, fun q => rfl, ?_⟩
  intro matrix g e h
  by_cases hgE : g.isEmpty = true
  · unfold matrix_to_df at h
    rw [if_pos hgE] at h
    cases h
  · unfold matrix_to_df at h
    rw [if_neg hgE] at h
    by_cases hsE : ((g.map FFunc.schema).flatten).isEmpty = true
    · rw [if_pos hsE] at h
      cases h
      exact Or.inl rfl
    · rw [if_neg hsE] at h
      by_cases hmE : matrix.isEmpty = true
      · rw [if_pos hmE] at h; cases h
      · rw [if_neg hmE] at h
        by_cases hlen : (((g.map FFunc.schema).flatten).map Prod.fst).length =
            matWidth matrix
        · rw [if_pos hlen] at h
          cases hee : exceptMap (castRow ((g.map FFunc.schema).flatten))
              (matrix.map (padRow (matWidth matrix))) with
          | ok rs => rw [hee] at h; cases h
          | error e0 =>
            obtain ⟨r, hr, hre⟩ := exceptMap_error_spec _ _ _ hee
            unfold castRow at hre
            obtain ⟨p, hp, hpe⟩ := exceptMap_error_spec _ _ _ hre
            have hc := hcv _ _ _ hpe
            rw [hee] at h
            cases h
            subst hc
            exact Or.inr (Or.inr ⟨p.1, _, rfl, hpe⟩)
        · rw [if_neg hlen] at h
          cases h
          exact Or.inr (Or.inl ⟨_, _, rfl⟩)

/-- Witness for the amended C4: `NaN` declared `int` errors with the value and
type; the float 7/2 declared `int` silently becomes 3; a concrete
`_matrix_to_df` failure is exactly such a cast error. -/
theorem cast_amended_witness :
    (PdError.castError .vna .pint = .castError .vna .pint) ∧
    castVal (.vfloat (mkRat 7 2)) .pint = .ok (.vint 3) ∧
    (PdError.castError .vna .pint = .emptySchema ∨
      (∃ a b, PdError.castError .vna .pint = .columnsMismatch a b) ∨
      ∃ v t, PdError.castError .vna .pint = .castError v t ∧
        castVal v t = .error (.castError v t)) := by
  refine ⟨(cast_amended (α := Unit)).1 .vna .pint _ (by decide), ?_, ?_⟩
  · have h := (cast_amended (α := Unit)).2.1 (mkRat 7 2)
    rw [h]
    decide
  · exact (cast_amended (α := Unit)).2.2 [[Val.vna]]
      [⟨"f", [("a", PDtype.pint)], fun _ => [Val.vna]⟩] _ (by decide)

/-- C9: `multiple` validates its `params` eagerly inside the decorator
factory: decoration succeeds iff every entry is a 2-element pair/list with a
string name and a type-or-string dtype, and then attaches exactly the
validated spec together with the decorated function's own name, leaving the
function's behaviour untouched; on a malformed spec it raises (the same error
whatever function is later decorated — no data is ever consulted). -/
theorem multiple_contract {α : Type} (params : List PyObj) (fname : String)
    (f : α → List Val) :
    ((∀ p ∈ params, entryOk p = true) → multiple params fname f = .ok ⟨fname, params, f⟩) ∧
    ((¬ ∀ p ∈ params, entryOk p = true) → ∃ e, multiple params fname f = .error e) ∧
    (∀ (e : SchemaErrorKind), validateParams params = .error e →
       ∀ (β : Type) (gname : String) (g : β → List Val), multiple params gname g = .error e) ∧
    (∀ pf, multiple params fname f = .ok pf →
       pf.name = fname ∧ pf.schema = params ∧ ∀ x, pf.fn x = f x) := by
  refine ⟨?_, ?_, ?_, ?_⟩
  · intro h
    have hv : validateParams params = .ok () := (checkParams_ok_iff params 0).mpr h
    unfold multiple
    rw [hv]
  · intro h
    cases hv : validateParams params with
    | ok u =>
      cases u
      exact absurd ((checkParams_ok_iff params 0).mp hv) h
    | error e => exact ⟨e, by unfold multiple; rw [hv]⟩
  · intro e he β gname g
    unfold multiple
    rw [he]
  · intro pf hpf
    unfold multiple at hpf
    cases hv : validateParams params with
    | error e => rw [hv] at hpf; cases hpf
    | ok u =>
      cases u
      rw [hv] at hpf
      cases hpf
      exact ⟨rfl, rfl, fun x => rfl⟩

/-- Witness for C9: a well-formed spec decorates successfully with the spec
and name attached; the malformed spec `[None]` fails at decoration time. -/
theorem multiple_contract_witness :
    multiple (α := Unit) [PyObj.pytuple [PyObj.pystr "a", PyObj.pytype PDtype.pfloat]]
        "get_a" (fun _ => [Val.vfloat 1]) =
      .ok ⟨"get_a", [PyObj.pytuple [PyObj.pystr "a", PyObj.pytype PDtype.pfloat]],
        fun _ => [Val.vfloat 1]⟩ ∧
    (∃ e, multiple (α := Unit) [PyObj.pynone] "bad" (fun _ => []) = .error e) := by
  constructor
  · exact (multiple_contract [PyObj.pytuple [PyObj.pystr "a", PyObj.pytype PDtype.pfloat]]
      "get_a" (fun _ => [Val.vfloat 1])).1 (by
        intro p hp
        rcases List.mem_singleton.mp hp with rfl
        rfl)
  · exact (multiple_contract [PyObj.pynone] "bad" (fun _ => [])).2.1 (by
      intro h
      have := h PyObj.pynone (List.mem_singleton.mpr rfl)
      cases this)

/-! ## The longitudinal aggregator (`create_student_features`, `utils.py`)

A pandas DataFrame is modelled as a header of (column name, dtype string)
pairs plus row-major cells.  Cells are exact rationals (for `float64`/`int64`
columns) or strings (for `object`/categorical columns). -/

inductive Cell : Type where
  | num (q : ℚ)
  | str (s : String)
deriving DecidableEq, Repr

/-- Read a cell as a rational; numeric-dtype columns only ever hold `num`
cells in well-typed frames, which is all the claims quantify over. -/
def Cell.toQ : Cell → ℚ
  | .num q => q
  | .str _ => 0

abbrev Row := List Cell

/-- Cell of row `r` in column `i` (frames are rectangular; the default is
never hit under the well-formedness hypotheses of the theorems). -/
def cellAt (i : Nat) (r : Row) : Cell := r.getD i (.num 0)

/-- Strict comparison used to model `sort_values`: numbers by value, strings
lexicographically, numbers before strings (a deterministic total extension —
pandas raises on mixed-type sort keys, which no claim exercises). -/
def cellLt : Cell → Cell → Prop
  | .num a, .num b => a < b
  | .num _, .str _ => True
  | .str _, .num _ => False
  | .str a, .str b => a < b

instance : DecidableRel cellLt := fun a b =>
  match a, b with
  | .num a, .num b => inferInstanceAs (Decidable (a < b))
  | .num _, .str _ => inferInstanceAs (Decidable True)
  | .str _, .num _ => inferInstanceAs (Decidable False)
  | .str a, .str b => inferInstanceAs (Decidable (a < b))

def cellLe (a b : Cell) : Prop := cellLt a b ∨ a = b

instance : DecidableRel cellLe := fun a b =>
  inferInstanceAs (Decidable (_ ∨ _))

theorem cellLt_irrefl (a : Cell) : ¬ cellLt a a := by
  cases a with
  | num q => exact lt_irrefl q
  | str s => exact lt_irrefl s

theorem cellLt_trans : ∀ {a b c : Cell}, cellLt a b → cellLt b c → cellLt a c := by
  intro a b c h1 h2
  cases a <;> cases b <;> cases c <;> simp only [cellLt] at h1 h2 ⊢ <;>
    first
      | exact lt_trans h1 h2
      | trivial

theorem cellLt_asymm {a b : Cell} (h1 : cellLt a b) (h2 : cellLt b a) : False :=
  cellLt_irrefl a (cellLt_trans h1 h2)

theorem cellLt_trichotomy (a b : Cell) : cellLt a b ∨ a = b ∨ cellLt b a := by
  cases a with
  | num qa =>
    cases b with
    | num qb =>
      rcases lt_trichotomy qa qb with h | h | h
      · exact Or.inl h
      · exact Or.inr (Or.inl (by rw [h]))
      · exact Or.inr (Or.inr h)
    | str sb => exact Or.inl trivial
  | str sa =>
    cases b with
    | num qb => exact Or.inr (Or.inr trivial)
    | str sb =>
      rcases lt_trichotomy sa sb with h | h | h
      · exact Or.inl h
      · exact Or.inr (Or.inl (by rw [h]))
      · exact Or.inr (Or.inr h)

theorem cellLe_total (a b : Cell) : cellLe a b ∨ cellLe b a := by
  rcases cellLt_trichotomy a b with h | h | h
  · exact Or.inl (Or.inl h)
  · exact Or.inl (Or.inr h)
  · exact Or.inr (Or.inl h)

theorem cellLe_trans : ∀ {a b c : Cell}, cellLe a b → cellLe b c → cellLe a c := by
  intro a b c h1 h2
  rcases h1 with h1 | rfl
  · rcases h2 with h2 | rfl
    · exact Or.inl (cellLt_trans h1 h2)
    · exact Or.inl h1
  · exact h2

/-- Lexicographic row comparison for `sort_values([student_col, year_col])`. -/
def rowLe (sIdx yIdx : Nat) (r1 r2 : Row) : Prop :=
  cellLt (cellAt sIdx r1) (cellAt sIdx r2) ∨
    (cellAt sIdx r1 = cellAt sIdx r2 ∧ cellLe (cellAt yIdx r1) (cellAt yIdx r2))

instance (sIdx yIdx : Nat) : DecidableRel (rowLe sIdx yIdx) := fun r1 r2 => by
  unfold rowLe
  infer_instance

instance (sIdx yIdx : Nat) : IsTotal Row (rowLe sIdx yIdx) := ⟨by
  intro r1 r2
  rcases cellLt_trichotomy (cellAt sIdx r1) (cellAt sIdx r2) with h | h | h
  · exact Or.inl (Or.inl h)
  · rcases cellLe_total (cellAt yIdx r1) (cellAt yIdx r2) with hy | hy
    · exact Or.inl (Or.inr ⟨h, hy⟩)
    · exact Or.inr (Or.inr ⟨h.symm, hy⟩)
  · exact Or.inr (Or.inl h)⟩

instance (sIdx yIdx : Nat) : IsTrans Row (rowLe sIdx yIdx) := ⟨by
  intro a b c h1 h2
  rcases h1 with h1 | ⟨he1, hy1⟩
  · rcases h2 with h2 | ⟨he2, hy2⟩
    · exact Or.inl (cellLt_trans h1 h2)
    · exact Or.inl (by rw [← he2]; exact h1)
  · rcases h2 with h2 | ⟨he2, hy2⟩
    · exact Or.inl (by rw [he1]; exact h2)
    · exact Or.inr ⟨he1.trans he2, cellLe_trans hy1 hy2⟩⟩

/-- Row comparison for the inner `group.sort_values(year_col)`. -/
def rowLeY (yIdx : Nat) (r1 r2 : Row) : Prop :=
  cellLe (cellAt yIdx r1) (cellAt yIdx r2)

instance (yIdx : Nat) : DecidableRel (rowLeY yIdx) := fun r1 r2 => by
  unfold rowLeY
  infer_instance

instance (yIdx : Nat) : IsTotal Row (rowLeY yIdx) :=
  ⟨fun r1 r2 => cellLe_total _ _⟩

instance (yIdx : Nat) : IsTrans Row (rowLeY yIdx) :=
  ⟨fun _ _ _ h1 h2 => cellLe_trans h1 h2⟩

/-- Strict time-ascending row order (used to state "ordered ascending by the
time column with pairwise-distinct times"). -/
def rowYLt (yIdx : Nat) (r1 r2 : Row) : Prop :=
  cellLt (cellAt yIdx r1) (cellAt yIdx r2)

instance (yIdx : Nat) : IsAntisymm Row (rowYLt yIdx) :=
  ⟨fun _ _ h1 h2 => (cellLt_asymm h1 h2).elim⟩

instance (yIdx : Nat) : DecidableRel (rowYLt yIdx) := fun r1 r2 => by
  unfold rowYLt
  infer_instance

/-- A pandas DataFrame for the aggregator. -/
structure Frame : Type where
  header : List (String × String)
  rows : List Row
deriving DecidableEq, Repr

def hdrName (hdr : List (String × String)) (i : Nat) : String :=
  (hdr.getD i ("", "")).1

def hdrDtype (hdr : List (String × String)) (i : Nat) : String :=
  (hdr.getD i ("", "")).2

/-- Column indices kept by `df.drop(columns=target_cols, errors="ignore")`. -/
def keepIdx (hdr : List (String × String)) (targets : List String) : List Nat :=
  (List.range hdr.length).filter (fun i => decide (hdrName hdr i ∉ targets))

def dropHeader (hdr : List (String × String)) (targets : List String) :
    List (String × String) :=
  (keepIdx hdr targets).map (fun i => hdr.getD i ("", ""))

def dropRow (hdr : List (String × String)) (targets : List String) (r : Row) : Row :=
  (keepIdx hdr targets).map (fun i => cellAt i r)

/-- `col in df.columns` / column lookup by name (first match). -/
def findCol (hdr : List (String × String)) (c : String) : Option Nat :=
  (hdr.map Prod.fst).findIdx? (fun nm => nm == c)

/-- `numeric_cols`: columns whose dtype string is in the allow-list and whose
name is neither the student nor the year column. -/
def numericIdx (hdr : List (String × String)) (sCol yCol : String)
    (nd : List String) : List Nat :=
  (List.range hdr.length).filter (fun i =>
    decide (hdrDtype hdr i ∈ nd ∧ hdrName hdr i ≠ sCol ∧ hdrName hdr i ≠ yCol))

/-- `all_feature_cols`: every column except the student and year columns. -/
def allFeatIdx (hdr : List (String × String)) (sCol yCol : String) : List Nat :=
  (List.range hdr.length).filter (fun i =>
    decide (hdrName hdr i ≠ sCol ∧ hdrName hdr i ≠ yCol))

/-- Output column labels: `{col}_latest`, `{col}_delta`, `{col}_slope` and
`num_snapshots`, modelled as tagged names so the derived-name structure is
explicit. -/
inductive OutCol : Type where
  | latest (c : String)
  | delta (c : String)
  | slope (c : String)
  | numSnapshots
deriving DecidableEq, Repr

/-- The `ValueError`s (and, for a dropped sort key, pandas `KeyError`) raised
by `create_student_features`. -/
inductive AggError : Type where
  | emptyFrame
  | missingColumn (c : String)
  | keyError (c : String)
  | noNumericColumns
deriving DecidableEq, Repr

/-- The pair returned by `create_student_features`: the student-id column and
the feature table, row `j` of both describing the same student. -/
structure AggOutput : Type where
  students : List Cell
  featRows : List (List (OutCol × Cell))
deriving DecidableEq, Repr

/-- The slope value computed by `slope_and_count` for one numeric column of
one student: `0.0` for fewer than two snapshots, otherwise the closed-form
OLS slope against rank indices, guarded by `... if denom else 0.0`.  (The
source hoists `n`, `idx_sum` and `idx_sqsum` out of its per-column loop; the
per-column value is identical.) -/
def slopeOf (n : Nat) (y : List ℚ) : ℚ :=
  if n < 2 then 0
  else if (n : ℚ) * (((n : ℚ) - 1) * (n : ℚ) * (2 * (n : ℚ) - 1) / 6) -
      ((n : ℚ) * ((n : ℚ) - 1) / 2) ^ 2 ≠ 0 then
    ((n : ℚ) * ((y.enum.map (fun p => ((p.1 : ℚ)) * p.2)).sum) -
        ((n : ℚ) * ((n : ℚ) - 1) / 2) * y.sum) /
      ((n : ℚ) * (((n : ℚ) - 1) * (n : ℚ) * (2 * (n : ℚ) - 1) / 6) -
        ((n : ℚ) * ((n : ℚ) - 1) / 2) ^ 2)
  else 0

/-- `slope_and_count(group)`: re-sort the group by the year column, emit
`num_snapshots` and then one slope per numeric column (insertion order of the
`out` dict). -/
def slope_and_count (hdr : List (String × String)) (yIdx : Nat)
    (numIdx : List Nat) (group : List Row) : List (OutCol × Cell) :=
  let grp := List.insertionSort (rowLeY yIdx) group
  let n := grp.length
  (OutCol.numSnapshots, Cell.num (n : ℚ)) ::
    numIdx.map (fun i =>
      (OutCol.slope (hdrName hdr i),
        Cell.num (slopeOf n (grp.map (fun r => (cellAt i r).toQ)))))

/-- One output row of the feature table for student `s`: the `head(1)` /
`tail(1)` rows of the student's group in sorted-frame order give `_latest`
(all feature columns) and `_delta` (`last − first`, numeric columns), then
`slope_and_count` appends `num_snapshots` and the slopes — the column order
of `last.join(delta).join(trends)`. -/
def entityRow (hdr : List (String × String)) (sIdx yIdx : Nat)
    (numIdx allIdx : List Nat) (sortedRows : List Row) (s : Cell) :
    List (OutCol × Cell) :=
  let grp := sortedRows.filter (fun r => decide (cellAt sIdx r = s))
  let firstRow := grp.headD []
  let lastRow := grp.getLastD []
  (allIdx.map (fun i => (OutCol.latest (hdrName hdr i), cellAt i lastRow))) ++
    (numIdx.map (fun i =>
      (OutCol.delta (hdrName hdr i),
        Cell.num ((cellAt i lastRow).toQ - (cellAt i firstRow).toQ)))) ++
    slope_and_count hdr yIdx numIdx grp

/-- The successful aggregation result: students in groupby order (ascending
distinct student keys of the sorted frame) and one feature row per student. -/
def aggOutput (hdr : List (String × String)) (sIdx yIdx : Nat)
    (numIdx allIdx : List Nat) (rows : List Row) : AggOutput :=
  let sorted := List.insertionSort (rowLe sIdx yIdx) rows
  let students := (sorted.map (cellAt sIdx)).dedup
  ⟨students, students.map (entityRow hdr sIdx yIdx numIdx allIdx sorted)⟩

/-- `create_student_features(df, student_col, year_col, target_cols,
numeric_dtypes)`: validate (empty frame, missing student/year column), default
the dtype allow-list to `["float64", "int64"]`, drop target columns with
`errors="ignore"`, sort by `[student_col, year_col]`, require at least one
numeric feature column, then emit one row per student.  Looking up the sort
columns after the drop mirrors the `KeyError` `sort_values` would raise if a
sort key was itself dropped. -/
def create_student_features (f : Frame) (student_col year_col : String)
    (target_cols : List String) (numeric_dtypes : Option (List String)) :
    Except AggError AggOutput :=
  if f.rows.isEmpty then .error .emptyFrame
  else if (findCol f.header student_col).isNone then .error (.missingColumn student_col)
  else if (findCol f.header year_col).isNone then .error (.missingColumn year_col)
  else
    let nd := numeric_dtypes.getD ["float64", "int64"]
    let hdr := dropHeader f.header target_cols
    let rows := f.rows.map (dropRow f.header target_cols)
    match findCol hdr student_col, findCol hdr year_col with
    | some sIdx, some yIdx =>
      let numIdx := numericIdx hdr student_col year_col nd
      let allIdx := allFeatIdx hdr student_col year_col
      if numIdx.isEmpty then .error .noNumericColumns
      else .ok (aggOutput hdr sIdx yIdx numIdx allIdx rows)
    | none, _ => .error (.keyError student_col)
    | _, none => .error (.keyError year_col)

/-- The closed-form OLS slope of values `y_0..y_{n-1}` against rank indices
`0..n-1` exactly as the spec states it, with slope `0.0` for `n < 2`:
`slope = (n·Σ(i·y_i) − Σi·Σy_i) / (n·Σi² − (Σi)²)`,
`Σi = n(n−1)/2`, `Σi² = (n−1)n(2n−1)/6`. -/
def specSlope (ys : List ℚ) : ℚ :=
  if ys.length < 2 then 0
  else
    ((ys.length : ℚ) * ((ys.enum.map (fun p => ((p.1 : ℚ)) * p.2)).sum) -
        ((ys.length : ℚ) * ((ys.length : ℚ) - 1) / 2) * ys.sum) /
      ((ys.length : ℚ) * (((ys.length : ℚ) - 1) * (ys.length : ℚ) *
          (2 * (ys.length : ℚ) - 1) / 6) -
        ((ys.length : ℚ) * ((ys.length : ℚ) - 1) / 2) ^ 2)

/-! ### Pipeline lemmas for the aggregator -/

theorem range_map_getD {A : Type} (l : List A) (d : A) :
    (List.range l.length).map (fun i => l.getD i d) = l := by
  induction l with
  | nil => rfl
  | cons a t ih =>
    rw [List.length_cons, List.range_succ_eq_map, List.map_cons, List.map_map]
    simp only [Function.comp_def, Nat.succ_eq_add_one, List.getD_cons_zero,
      List.getD_cons_succ]
    rw [ih]

theorem keepIdx_nil (hdr : List (String × String)) :
    keepIdx hdr [] = List.range hdr.length := by
  unfold keepIdx
  apply List.filter_eq_self.mpr
  intro i _
  simp

theorem dropHeader_nil (hdr : List (String × String)) :
    dropHeader hdr [] = hdr := by
  unfold dropHeader
  rw [keepIdx_nil]
  exact range_map_getD hdr _

theorem dropRow_nil (hdr : List (String × String)) (r : Row)
    (h : r.length = hdr.length) : dropRow hdr [] r = r := by
  unfold dropRow
  rw [keepIdx_nil, ← h]
  exact range_map_getD r _

theorem findCol_eq_none_iff (hdr : List (String × String)) (c : String) :
    findCol hdr c = none ↔ c ∉ hdr.map Prod.fst := by
  unfold findCol
  rw [List.findIdx?_eq_none_iff]
  constructor
  · intro h hc
    have := h c hc
    simp at this
  · intro h nm hnm
    by_cases hec : nm = c
    · exact absurd (hec ▸ hnm) h
    · simp [hec]

theorem hdrName_mem (hdr : List (String × String)) {i : Nat} (hi : i < hdr.length) :
    hdrName hdr i ∈ hdr.map Prod.fst := by
  unfold hdrName
  rw [List.getD_eq_getElem _ _ hi]
  exact List.mem_map.mpr ⟨hdr[i], List.getElem_mem hi, rfl⟩

theorem mem_names_iff (hdr : List (String × String)) (c : String) :
    c ∈ hdr.map Prod.fst ↔ ∃ i, ∃ _ : i < hdr.length, hdrName hdr i = c := by
  constructor
  · intro h
    obtain ⟨p, hp, rfl⟩ := List.mem_map.mp h
    obtain ⟨i, hi, rfl⟩ := List.mem_iff_getElem.mp hp
    exact ⟨i, hi, by unfold hdrName; rw [List.getD_eq_getElem _ _ hi]⟩
  · rintro ⟨i, hi, rfl⟩
    exact hdrName_mem hdr hi

theorem dropHeader_names (hdr : List (String × String)) (targets : List String) :
    (dropHeader hdr targets).map Prod.fst =
      (keepIdx hdr targets).map (fun i => hdrName hdr i) := by
  unfold dropHeader
  rw [List.map_map]
  rfl

theorem mem_keepIdx_iff (hdr : List (String × String)) (targets : List String)
    (i : Nat) : i ∈ keepIdx hdr targets ↔
      i < hdr.length ∧ hdrName hdr i ∉ targets := by
  unfold keepIdx
  rw [List.mem_filter, List.mem_range]
  simp

theorem mem_dropHeader_names (hdr : List (String × String)) (targets : List String)
    (c : String) :
    c ∈ (dropHeader hdr targets).map Prod.fst ↔
      c ∈ hdr.map Prod.fst ∧ c ∉ targets := by
  rw [dropHeader_names]
  constructor
  · intro h
    obtain ⟨i, hi, rfl⟩ := List.mem_map.mp h
    obtain ⟨hlt, hnt⟩ := (mem_keepIdx_iff hdr targets i).mp hi
    exact ⟨hdrName_mem hdr hlt, hnt⟩
  · rintro ⟨hc, hnt⟩
    obtain ⟨i, hi, rfl⟩ := (mem_names_iff hdr c).mp hc
    exact List.mem_map.mpr ⟨i, (mem_keepIdx_iff hdr targets i).mpr ⟨hi, hnt⟩, rfl⟩

theorem hdrName_inj (hdr : List (String × String))
    (hnd : (hdr.map Prod.fst).Nodup) {i j : Nat}
    (hi : i < hdr.length) (hj : j < hdr.length)
    (h : hdrName hdr i = hdrName hdr j) : i = j := by
  have hi' : i < (hdr.map Prod.fst).length := by rwa [List.length_map]
  have hj' : j < (hdr.map Prod.fst).length := by rwa [List.length_map]
  have hgi : (hdr.map Prod.fst)[i] = hdrName hdr i := by
    rw [List.getElem_map]
    unfold hdrName
    rw [List.getD_eq_getElem _ _ hi]
  have hgj : (hdr.map Prod.fst)[j] = hdrName hdr j := by
    rw [List.getElem_map]
    unfold hdrName
    rw [List.getD_eq_getElem _ _ hj]
  exact (List.Nodup.getElem_inj_iff hnd).mp (by rw [hgi, hgj, h])

theorem grp_perm (sIdx yIdx : Nat) (rows : List Row) (s : Cell) :
    ((List.insertionSort (rowLe sIdx yIdx) rows).filter
        (fun r => decide (cellAt sIdx r = s))).Perm
      (rows.filter (fun r => decide (cellAt sIdx r = s))) :=
  (List.perm_insertionSort _ rows).filter _

theorem grp_student (sIdx yIdx : Nat) (rows : List Row) (s : Cell) (r : Row)
    (hr : r ∈ (List.insertionSort (rowLe sIdx yIdx) rows).filter
      (fun r => decide (cellAt sIdx r = s))) : cellAt sIdx r = s :=
  of_decide_eq_true (List.mem_filter.mp hr).2

theorem grp_sorted (sIdx yIdx : Nat) (rows : List Row) (s : Cell) :
    ((List.insertionSort (rowLe sIdx yIdx) rows).filter
        (fun r => decide (cellAt sIdx r = s))).Sorted (rowLeY yIdx) := by
  have hsorted : (List.insertionSort (rowLe sIdx yIdx) rows).Sorted (rowLe sIdx yIdx) :=
    List.sorted_insertionSort _ _
  have hfil : ((List.insertionSort (rowLe sIdx yIdx) rows).filter
      (fun r => decide (cellAt sIdx r = s))).Pairwise (rowLe sIdx yIdx) :=
    List.Pairwise.filter _ hsorted
  refine List.Pairwise.imp_of_mem ?_ hfil
  intro a b ha hb hab
  have hsa : cellAt sIdx a = s := grp_student sIdx yIdx rows s a ha
  have hsb : cellAt sIdx b = s := grp_student sIdx yIdx rows s b hb
  rcases hab with h | ⟨-, hy⟩
  · rw [hsa, hsb] at h
    exact absurd h (cellLt_irrefl s)
  · exact hy

theorem headD_eq_of_min (yIdx : Nat) (grp : List Row) (r0 : Row)
    (hs : grp.Sorted (rowLeY yIdx)) (hmem : r0 ∈ grp)
    (hmin : ∀ r ∈ grp, r ≠ r0 → cellLt (cellAt yIdx r0) (cellAt yIdx r)) :
    grp.headD [] = r0 := by
  cases grp with
  | nil => cases hmem
  | cons h t =>
    by_cases heq : h = r0
    · simpa using heq
    · have hr0t : r0 ∈ t := by
        rcases List.mem_cons.mp hmem with rfl | ht
        · exact absurd rfl heq
        · exact ht
      have hle : rowLeY yIdx h r0 := (List.pairwise_cons.mp hs).1 r0 hr0t
      have hlt : cellLt (cellAt yIdx r0) (cellAt yIdx h) :=
        hmin h (List.mem_cons_self _ _) heq
      rcases hle with hlt2 | heq2
      · exact absurd (cellLt_trans hlt hlt2) (cellLt_irrefl _)
      · rw [heq2] at hlt
        exact absurd hlt (cellLt_irrefl _)

theorem getLastD_eq_of_max (yIdx : Nat) :
    ∀ (grp : List Row) (r1 : Row), grp.Sorted (rowLeY yIdx) → r1 ∈ grp →
      (∀ r ∈ grp, r ≠ r1 → cellLt (cellAt yIdx r) (cellAt yIdx r1)) →
      grp.getLastD [] = r1 := by
  intro grp
  induction grp with
  | nil => intro r1 _ hmem _; cases hmem
  | cons h t ih =>
    intro r1 hs hmem hmax
    cases t with
    | nil =>
      rcases List.mem_singleton.mp hmem with rfl
      rfl
    | cons h2 t2 =>
      have hgl : (h :: h2 :: t2).getLastD [] = (h2 :: t2).getLastD [] := by
        simp only [List.getLastD_cons]
      rw [hgl]
      have hr1 : r1 ∈ h2 :: t2 := by
        rcases List.mem_cons.mp hmem with rfl | hr1t
        · by_cases hh2 : h2 = r1
          · exact hh2 ▸ List.mem_cons_self _ _
          · have hlt := hmax h2 (List.mem_cons_of_mem _ (List.mem_cons_self _ _)) hh2
            have hle : rowLeY yIdx r1 h2 :=
              (List.pairwise_cons.mp hs).1 h2 (List.mem_cons_self _ _)
            rcases hle with hlt2 | heq2
            · exact absurd (cellLt_trans hlt hlt2) (cellLt_irrefl _)
            · rw [heq2] at hlt
              exact absurd hlt (cellLt_irrefl _)
        · exact hr1t
      exact ih r1 hs.of_cons hr1
        (fun r hr hne => hmax r (List.mem_cons_of_mem _ hr) hne)

/-- Strictly time-sorted lists are rigid: a permutation of a group that is
strictly ascending in the year column is the group's own year-sort. -/
theorem grp_eq_of_strict (yIdx : Nat) (grp rs : List Row)
    (hperm : grp.Perm rs)
    (hg : grp.Sorted (rowLeY yIdx))
    (hr : rs.Sorted (rowYLt yIdx)) :
    grp = rs := by
  have hdist : rs.Pairwise (fun a b => cellAt yIdx a ≠ cellAt yIdx b) :=
    hr.imp (fun {a b} h => fun he => by
      have h' : cellLt (cellAt yIdx a) (cellAt yIdx b) := h
      rw [he] at h'
      exact cellLt_irrefl _ h')
  have hdg : grp.Pairwise (fun a b => cellAt yIdx a ≠ cellAt yIdx b) :=
    (List.Perm.pairwise_iff (fun {x y} h => fun he => h he.symm) hperm).mpr hdist
  have hgs : grp.Sorted (rowYLt yIdx) := by
    have hand := hg.and hdg
    exact hand.imp (fun {a b} hp => by
      rcases hp.1 with hlt | heq
      · exact hlt
      · exact absurd heq hp.2)
  exact List.eq_of_perm_of_sorted hperm hgs hr

/-! ### Association-list lookup lemmas for the output rows -/

theorem lookup_append_of_none {K V : Type} [BEq K] (k : K)
    (l1 l2 : List (K × V)) (h : l1.lookup k = none) :
    (l1 ++ l2).lookup k = l2.lookup k := by
  induction l1 with
  | nil => rfl
  | cons p t ih =>
    obtain ⟨a, b⟩ := p
    simp only [List.lookup] at h
    simp only [List.cons_append, List.lookup]
    cases hb : k == a with
    | true =>
      simp only [hb] at h
      cases h
    | false =>
      simp only [hb] at h ⊢
      exact ih h

theorem lookup_map_none {K V I : Type} [BEq K] (k : K) (mk : I → K) (v : I → V)
    (idxs : List I) (h : ∀ i ∈ idxs, (k == mk i) = false) :
    (idxs.map (fun i => (mk i, v i))).lookup k = none := by
  induction idxs with
  | nil => rfl
  | cons j t ih =>
    simp only [List.map_cons, List.lookup, h j (List.mem_cons_self _ _)]
    exact ih (fun i hi => h i (List.mem_cons_of_mem _ hi))

theorem lookup_map_some {K V I : Type} [BEq K] [LawfulBEq K] (k : K) (mk : I → K)
    (v : I → V) (idxs : List I) (i : I) (hi : i ∈ idxs) (hk : mk i = k)
    (huniq : ∀ j ∈ idxs, mk j = k → v j = v i) :
    (idxs.map (fun i => (mk i, v i))).lookup k = some (v i) := by
  induction idxs with
  | nil => cases hi
  | cons j t ih =>
    simp only [List.map_cons, List.lookup]
    cases hb : k == mk j with
    | true =>
      have hjk : mk j = k := (eq_of_beq hb).symm
      simp only [hb]
      rw [huniq j (List.mem_cons_self _ _) hjk]
    | false =>
      have hne : mk j ≠ k := by
        intro he
        have : (k == mk j) = true := by rw [he]; exact beq_self_eq_true k
        rw [this] at hb
        cases hb
      have hit : i ∈ t := by
        rcases List.mem_cons.mp hi with rfl | h
        · exact absurd hk hne
        · exact h
      simp only [hb]
      exact ih hit (fun j2 hj2 hk2 => huniq j2 (List.mem_cons_of_mem _ hj2) hk2)

/-- The code's per-column slope (with its `denom`-guard) coincides with the
spec's closed-form slope: for `n ≥ 2` the denominator `n·Σi² − (Σi)²` equals
`n²(n−1)(n+1)/12 > 0`, so the guard never fires. -/
theorem slopeOf_eq_specSlope (y : List ℚ) : slopeOf y.length y = specSlope y := by
  unfold slopeOf specSlope
  by_cases h : y.length < 2
  · rw [if_pos h, if_pos h]
  · rw [if_neg h, if_neg h]
    have hX2 : (2 : ℚ) ≤ (y.length : ℚ) := by
      exact_mod_cast Nat.le_of_not_lt h
    have hfac : (y.length : ℚ) * (((y.length : ℚ) - 1) * (y.length : ℚ) *
        (2 * (y.length : ℚ) - 1) / 6) - ((y.length : ℚ) * ((y.length : ℚ) - 1) / 2) ^ 2 =
          (y.length : ℚ) ^ 2 * ((y.length : ℚ) - 1) * ((y.length : ℚ) + 1) / 12 := by
      ring
    have hpos : 0 < (y.length : ℚ) * (((y.length : ℚ) - 1) * (y.length : ℚ) *
        (2 * (y.length : ℚ) - 1) / 6) - ((y.length : ℚ) * ((y.length : ℚ) - 1) / 2) ^ 2 := by
      rw [hfac]
      have h1 : (0 : ℚ) < (y.length : ℚ) - 1 := by linarith
      have h2 : (0 : ℚ) < (y.length : ℚ) + 1 := by linarith
      have h0 : (0 : ℚ) < (y.length : ℚ) := by linarith
      have h3 : (0 : ℚ) < (y.length : ℚ) ^ 2 := pow_pos h0 2
      exact div_pos (mul_pos (mul_pos h3 h1) h2) (by norm_num)
    rw [if_pos (ne_of_gt hpos)]

/-- Successful aggregation takes exactly the `aggOutput` form. -/
theorem create_ok_form (f : Frame) (sCol yCol : String) (targets : List String)
    (nd : Option (List String)) (sIdx yIdx : Nat)
    (h1 : f.rows.isEmpty = false)
    (h2 : (findCol f.header sCol).isNone = false)
    (h3 : (findCol f.header yCol).isNone = false)
    (h4 : findCol (dropHeader f.header targets) sCol = some sIdx)
    (h5 : findCol (dropHeader f.header targets) yCol = some yIdx)
    (h6 : (numericIdx (dropHeader f.header targets) sCol yCol
        (nd.getD ["float64", "int64"])).isEmpty = false) :
    create_student_features f sCol yCol targets nd =
      .ok (aggOutput (dropHeader f.header targets) sIdx yIdx
        (numericIdx (dropHeader f.header targets) sCol yCol (nd.getD ["float64", "int64"]))
        (allFeatIdx (dropHeader f.header targets) sCol yCol)
        (f.rows.map (dropRow f.header targets))) := by
  unfold create_student_features
  rw [h1, h2, h3]
  simp only [Bool.false_eq_true, if_false]
  rw [h4, h5]
  simp only [h6, Bool.false_eq_true, if_false]

/-- The students appearing in the output are exactly the student-cell values
of the input rows. -/
theorem mem_students_iff (sIdx yIdx : Nat) (rows : List Row) (e : Cell) :
    e ∈ ((List.insertionSort (rowLe sIdx yIdx) rows).map (cellAt sIdx)).dedup ↔
      ∃ r ∈ rows, cellAt sIdx r = e := by
  rw [List.mem_dedup, List.mem_map]
  constructor
  · rintro ⟨r, hr, rfl⟩
    exact ⟨r, ((List.perm_insertionSort (rowLe sIdx yIdx) rows).mem_iff).mp hr, rfl⟩
  · rintro ⟨r, hr, rfl⟩
    exact ⟨r, ((List.perm_insertionSort (rowLe sIdx yIdx) rows).mem_iff).mpr hr, rfl⟩

theorem aggOutput_featRow (hdr : List (String × String)) (sIdx yIdx : Nat)
    (numIdx allIdx : List Nat) (rows : List Row) (j : Nat) (e : Cell)
    (fr : List (OutCol × Cell))
    (hj : (aggOutput hdr sIdx yIdx numIdx allIdx rows).students[j]? = some e)
    (hfr : (aggOutput hdr sIdx yIdx numIdx allIdx rows).featRows[j]? = some fr) :
    fr = entityRow hdr sIdx yIdx numIdx allIdx
      (List.insertionSort (rowLe sIdx yIdx) rows) e := by
  unfold aggOutput at hj hfr
  rw [List.getElem?_map, hj] at hfr
  simp only [Option.map_some', Option.some.injEq] at hfr
  rw [hfr]

theorem lookup_append_left {K V : Type} [BEq K] (k : K) (l1 l2 : List (K × V))
    (v : V) (h : l1.lookup k = some v) : (l1 ++ l2).lookup k = some v := by
  induction l1 with
  | nil => cases h
  | cons p t ih =>
    obtain ⟨a, b⟩ := p
    simp only [List.lookup] at h
    simp only [List.cons_append, List.lookup]
    cases hb : k == a with
    | true =>
      simp only [hb] at h ⊢
      exact h
    | false =>
      simp only [hb] at h ⊢
      exact ih h

/-! ### Lookups in one output row -/

theorem entityRow_lookup_latest (hdr : List (String × String)) (sIdx yIdx : Nat)
    (numIdx allIdx : List Nat) (sorted : List Row) (s : Cell) (i : Nat)
    (hi : i ∈ allIdx)
    (hu : ∀ j ∈ allIdx, hdrName hdr j = hdrName hdr i → j = i) :
    (entityRow hdr sIdx yIdx numIdx allIdx sorted s).lookup
        (OutCol.latest (hdrName hdr i)) =
      some (cellAt i
        ((sorted.filter (fun r => decide (cellAt sIdx r = s))).getLastD [])) := by
  simp only [entityRow]
  rw [List.append_assoc]
  exact lookup_append_left _ _ _ _
    (lookup_map_some _ _ _ allIdx i hi rfl
      (fun j hj hk => by rw [hu j hj (OutCol.latest.inj hk)]))

theorem entityRow_lookup_delta (hdr : List (String × String)) (sIdx yIdx : Nat)
    (numIdx allIdx : List Nat) (sorted : List Row) (s : Cell) (i : Nat)
    (hi : i ∈ numIdx)
    (hu : ∀ j ∈ numIdx, hdrName hdr j = hdrName hdr i → j = i) :
    (entityRow hdr sIdx yIdx numIdx allIdx sorted s).lookup
        (OutCol.delta (hdrName hdr i)) =
      some (Cell.num
        ((cellAt i ((sorted.filter (fun r => decide (cellAt sIdx r = s))).getLastD [])).toQ -
         (cellAt i ((sorted.filter (fun r => decide (cellAt sIdx r = s))).headD [])).toQ)) := by
  simp only [entityRow]
  rw [List.append_assoc]
  rw [lookup_append_of_none _ _ _
    (lookup_map_none _ _ _ allIdx (fun j hj => by
      rw [beq_eq_false_iff_ne]
      intro h
      cases h))]
  exact lookup_append_left _ _ _ _
    (lookup_map_some _ _ _ numIdx i hi rfl
      (fun j hj hk => by rw [hu j hj (OutCol.delta.inj hk)]))

theorem entityRow_lookup_snapshots (hdr : List (String × String)) (sIdx yIdx : Nat)
    (numIdx allIdx : List Nat) (sorted : List Row) (s : Cell) :
    (entityRow hdr sIdx yIdx numIdx allIdx sorted s).lookup OutCol.numSnapshots =
      some (Cell.num
        (((List.insertionSort (rowLeY yIdx)
          (sorted.filter (fun r => decide (cellAt sIdx r = s)))).length : ℚ))) := by
  simp only [entityRow, slope_and_count]
  rw [List.append_assoc]
  rw [lookup_append_of_none _ _ _
    (lookup_map_none _ _ _ allIdx (fun j hj => by
      rw [beq_eq_false_iff_ne]
      intro h
      cases h))]
  rw [lookup_append_of_none _ _ _
    (lookup_map_none _ _ _ numIdx (fun j hj => by
      rw [beq_eq_false_iff_ne]
      intro h
      cases h))]
  simp [List.lookup]

theorem entityRow_lookup_slope (hdr : List (String × String)) (sIdx yIdx : Nat)
    (numIdx allIdx : List Nat) (sorted : List Row) (s : Cell) (i : Nat)
    (hi : i ∈ numIdx)
    (hu : ∀ j ∈ numIdx, hdrName hdr j = hdrName hdr i → j = i) :
    (entityRow hdr sIdx yIdx numIdx allIdx sorted s).lookup
        (OutCol.slope (hdrName hdr i)) =
      some (Cell.num (slopeOf
        (List.insertionSort (rowLeY yIdx)
          (sorted.filter (fun r => decide (cellAt sIdx r = s)))).length
        ((List.insertionSort (rowLeY yIdx)
          (sorted.filter (fun r => decide (cellAt sIdx r = s)))).map
            (fun r => (cellAt i r).toQ)))) := by
  simp only [entityRow, slope_and_count]
  rw [List.append_assoc]
  rw [lookup_append_of_none _ _ _
    (lookup_map_none _ _ _ allIdx (fun j hj => by
      rw [beq_eq_false_iff_ne]
      intro h
      cases h))]
  rw [lookup_append_of_none _ _ _
    (lookup_map_none _ _ _ numIdx (fun j hj => by
      rw [beq_eq_false_iff_ne]
      intro h
      cases h))]
  rw [List.lookup]
  have hb : (OutCol.slope (hdrName hdr i) == OutCol.numSnapshots) = false := by
    rw [beq_eq_false_iff_ne]
    intro h
    cases h
  simp only [hb]
  exact lookup_map_some _ _ _ numIdx i hi rfl
    (fun j hj hk => by rw [hu j hj (OutCol.slope.inj hk)])

theorem mem_allFeatIdx (hdr : List (String × String)) (sCol yCol : String) (i : Nat) :
    i ∈ allFeatIdx hdr sCol yCol ↔
      i < hdr.length ∧ hdrName hdr i ≠ sCol ∧ hdrName hdr i ≠ yCol := by
  unfold allFeatIdx
  rw [List.mem_filter, List.mem_range]
  simp

theorem mem_numericIdx (hdr : List (String × String)) (sCol yCol : String)
    (nd : List String) (i : Nat) :
    i ∈ numericIdx hdr sCol yCol nd ↔
      i < hdr.length ∧ hdrDtype hdr i ∈ nd ∧
        hdrName hdr i ≠ sCol ∧ hdrName hdr i ≠ yCol := by
  unfold numericIdx
  rw [List.mem_filter, List.mem_range]
  simp

theorem isEmpty_false_of_ne_nil {A : Type} {l : List A} (h : l ≠ []) :
    l.isEmpty = false := by
  cases l with
  | nil => exact absurd rfl h
  | cons a t => rfl

/-- Inversion of a successful aggregation. -/
theorem create_ok_inv (f : Frame) (sCol yCol : String) (targets : List String)
    (nd : Option (List String)) (out : AggOutput)
    (h : create_student_features f sCol yCol targets nd = .ok out) :
    ∃ sIdx yIdx,
      findCol (dropHeader f.header targets) sCol = some sIdx ∧
      findCol (dropHeader f.header targets) yCol = some yIdx ∧
      out = aggOutput (dropHeader f.header targets) sIdx yIdx
        (numericIdx (dropHeader f.header targets) sCol yCol (nd.getD ["float64", "int64"]))
        (allFeatIdx (dropHeader f.header targets) sCol yCol)
        (f.rows.map (dropRow f.header targets)) := by
  unfold create_student_features at h
  by_cases h1 : f.rows.isEmpty = true
  · rw [if_pos h1] at h; cases h
  · rw [if_neg h1] at h
    by_cases h2 : (findCol f.header sCol).isNone = true
    · rw [if_pos h2] at h; cases h
    · rw [if_neg h2] at h
      by_cases h3 : (findCol f.header yCol).isNone = true
      · rw [if_pos h3] at h; cases h
      · rw [if_neg h3] at h
        cases h4 : findCol (dropHeader f.header targets) sCol with
        | none => simp only [h4] at h; cases h
        | some sIdx =>
          cases h5 : findCol (dropHeader f.header targets) yCol with
          | none => simp only [h4, h5] at h; cases h
          | some yIdx =>
            simp only [h4, h5] at h
            by_cases h6 : (numericIdx (dropHeader f.header targets) sCol yCol
                (nd.getD ["float64", "int64"])).isEmpty = true
            · rw [if_pos h6] at h; cases h
            · rw [if_neg h6] at h
              cases h
              exact ⟨sIdx, yIdx, rfl, rfl, rfl⟩

/-- C7: the aggregator fails with the `ValueError`-class errors — empty frame,
missing student column, missing year column (checked in that order, before any
output is produced), and, after dropping the target columns, no numeric
feature column left under the dtype allow-list (defaulting to
`["float64", "int64"]`). -/
theorem aggregator_validation (f : Frame) (student_col year_col : String)
    (target_cols : List String) (nd : Option (List String)) :
    (f.rows = [] →
      create_student_features f student_col year_col target_cols nd =
        .error .emptyFrame) ∧
    (f.rows ≠ [] → student_col ∉ f.header.map Prod.fst →
      create_student_features f student_col year_col target_cols nd =
        .error (.missingColumn student_col)) ∧
    (f.rows ≠ [] → student_col ∈ f.header.map Prod.fst →
      year_col ∉ f.header.map Prod.fst →
      create_student_features f student_col year_col target_cols nd =
        .error (.missingColumn year_col)) ∧
    (f.rows ≠ [] → student_col ∈ f.header.map Prod.fst →
      year_col ∈ f.header.map Prod.fst →
      student_col ∉ target_cols → year_col ∉ target_cols →
      numericIdx (dropHeader f.header target_cols) student_col year_col
        (nd.getD ["float64", "int64"]) = [] →
      create_student_features f student_col year_col target_cols nd =
        .error .noNumericColumns) := by
  refine ⟨?_, ?_, ?_, ?_⟩
  · intro hE
    have h1 : f.rows.isEmpty = true := by rw [hE]; rfl
    unfold create_student_features
    rw [if_pos h1]
  · intro hne hnm
    have h1 : f.rows.isEmpty = false := isEmpty_false_of_ne_nil hne
    have h2 : findCol f.header student_col = none := (findCol_eq_none_iff _ _).mpr hnm
    unfold create_student_features
    rw [h1, h2]
    simp
  · intro hne hsm hnm
    have h1 : f.rows.isEmpty = false := isEmpty_false_of_ne_nil hne
    have h2 : (findCol f.header student_col).isNone = false := by
      cases hfc : findCol f.header student_col with
      | none => exact absurd ((findCol_eq_none_iff _ _).mp hfc) (by simp [hsm])
      | some k => rfl
    have h3 : findCol f.header year_col = none := (findCol_eq_none_iff _ _).mpr hnm
    unfold create_student_features
    rw [h1, h2, h3]
    simp
  · intro hne hsm hym hst hyt hnum
    have h1 : f.rows.isEmpty = false := isEmpty_false_of_ne_nil hne
    have h2 : (findCol f.header student_col).isNone = false := by
      cases hfc : findCol f.header student_col with
      | none => exact absurd ((findCol_eq_none_iff _ _).mp hfc) (by simp [hsm])
      | some k => rfl
    have h3 : (findCol f.header year_col).isNone = false := by
      cases hfc : findCol f.header year_col with
      | none => exact absurd ((findCol_eq_none_iff _ _).mp hfc) (by simp [hym])
      | some k => rfl
    have hsd : student_col ∈ (dropHeader f.header target_cols).map Prod.fst :=
      (mem_dropHeader_names _ _ _).mpr ⟨hsm, hst⟩
    have hyd : year_col ∈ (dropHeader f.header target_cols).map Prod.fst :=
      (mem_dropHeader_names _ _ _).mpr ⟨hym, hyt⟩
    unfold create_student_features
    rw [h1, h2, h3]
    simp only [Bool.false_eq_true, if_false]
    cases h4 : findCol (dropHeader f.header target_cols) student_col with
    | none => exact absurd ((findCol_eq_none_iff _ _).mp h4) (by simp [hsd])
    | some sIdx =>
      cases h5 : findCol (dropHeader f.header target_cols) year_col with
      | none => exact absurd ((findCol_eq_none_iff _ _).mp h5) (by simp [hyd])
      | some yIdx =>
        have h6 : (numericIdx (dropHeader f.header target_cols) student_col year_col
            (nd.getD ["float64", "int64"])).isEmpty = true := by
          rw [hnum]; rfl
        simp only [h6, if_true]

def vFrameMissing : Frame :=
  ⟨[("sid", "int64"), ("year", "int64"), ("gpa", "float64")],
   [[Cell.num 1, Cell.num 2020, Cell.num 3]]⟩

def vFrameNoNumeric : Frame :=
  ⟨[("sid", "int64"), ("year", "int64"), ("major", "object"), ("gpa", "float64")],
   [[Cell.num 1, Cell.num 2020, Cell.str "CS", Cell.num 3]]⟩

/-- Witness for C7 at concrete frames: empty frame, missing student column,
missing year column, and no numeric feature column once `gpa` is a target. -/
theorem aggregator_validation_witness :
    create_student_features ⟨[("sid", "int64")], []⟩ "sid" "year" [] none =
      .error .emptyFrame ∧
    create_student_features vFrameMissing "nope" "year" [] none =
      .error (.missingColumn "nope") ∧
    create_student_features vFrameMissing "sid" "nope" [] none =
      .error (.missingColumn "nope") ∧
    create_student_features vFrameNoNumeric "sid" "year" ["gpa"] none =
      .error .noNumericColumns := by
  refine ⟨?_, ?_, ?_, ?_⟩
  · exact (aggregator_validation ⟨[("sid", "int64")], []⟩ "sid" "year" [] none).1 rfl
  · exact (aggregator_validation vFrameMissing "nope" "year" [] none).2.1
      (by decide) (by decide)
  · exact (aggregator_validation vFrameMissing "sid" "nope" [] none).2.2.1
      (by decide) (by decide) (by decide)
  · exact (aggregator_validation vFrameNoNumeric "sid" "year" ["gpa"] none).2.2.2
      (by decide) (by decide) (by decide) (by decide) (by decide) (by decide)

/-- All three derived lookups for a name that no kept column bears are
absent from an output row. -/
theorem entityRow_target_none (hdr : List (String × String)) (sIdx yIdx : Nat)
    (numIdx allIdx : List Nat) (sorted : List Row) (s : Cell) (c : String)
    (hnum : ∀ i ∈ numIdx, hdrName hdr i ≠ c)
    (hall : ∀ i ∈ allIdx, hdrName hdr i ≠ c) :
    (entityRow hdr sIdx yIdx numIdx allIdx sorted s).lookup (OutCol.latest c) = none ∧
    (entityRow hdr sIdx yIdx numIdx allIdx sorted s).lookup (OutCol.delta c) = none ∧
    (entityRow hdr sIdx yIdx numIdx allIdx sorted s).lookup (OutCol.slope c) = none := by
  have hklat : ∀ i ∈ allIdx, (OutCol.latest c == OutCol.latest (hdrName hdr i)) = false := by
    intro i hi
    rw [beq_eq_false_iff_ne]
    intro h
    exact hall i hi (OutCol.latest.inj h).symm
  simp only [entityRow, slope_and_count]
  rw [List.append_assoc]
  refine ⟨?_, ?_, ?_⟩
  · rw [lookup_append_of_none _ _ _ (lookup_map_none _ _ _ allIdx hklat)]
    rw [lookup_append_of_none _ _ _
      (lookup_map_none _ _ _ numIdx (fun j hj => by
        rw [beq_eq_false_iff_ne]
        intro h
        cases h))]
    rw [List.lookup]
    have hb : (OutCol.latest c == OutCol.numSnapshots) = false := by
      rw [beq_eq_false_iff_ne]
      intro h
      cases h
    simp only [hb]
    exact lookup_map_none _ _ _ numIdx (fun j hj => by
      rw [beq_eq_false_iff_ne]
      intro h
      cases h)
  · rw [lookup_append_of_none _ _ _
      (lookup_map_none _ _ _ allIdx (fun j hj => by
        rw [beq_eq_false_iff_ne]
        intro h
        cases h))]
    rw [lookup_append_of_none _ _ _
      (lookup_map_none _ _ _ numIdx (fun j hj => by
        rw [beq_eq_false_iff_ne]
        intro h
        exact hnum j hj (OutCol.delta.inj h).symm))]
    rw [List.lookup]
    have hb : (OutCol.delta c == OutCol.numSnapshots) = false := by
      rw [beq_eq_false_iff_ne]
      intro h
      cases h
    simp only [hb]
    exact lookup_map_none _ _ _ numIdx (fun j hj => by
      rw [beq_eq_false_iff_ne]
      intro h
      cases h)
  · rw [lookup_append_of_none _ _ _
      (lookup_map_none _ _ _ allIdx (fun j hj => by
        rw [beq_eq_false_iff_ne]
        intro h
        cases h))]
    rw [lookup_append_of_none _ _ _
      (lookup_map_none _ _ _ numIdx (fun j hj => by
        rw [beq_eq_false_iff_ne]
        intro h
        cases h))]
    rw [List.lookup]
    have hb : (OutCol.slope c == OutCol.numSnapshots) = false := by
      rw [beq_eq_false_iff_ne]
      intro h
      cases h
    simp only [hb]
    exact lookup_map_none _ _ _ numIdx (fun j hj => by
      rw [beq_eq_false_iff_ne]
      intro h
      exact hnum j hj (OutCol.slope.inj h).symm)

/-- C8: a column named in `target_cols` never appears in the output feature
table under any derived name — not as `{col}_latest`, `{col}_delta` or
`{col}_slope` — and a target column that is absent from the input frame
changes nothing (`errors="ignore"`), in particular it causes no error. -/
theorem target_exclusion (f : Frame) (student_col year_col : String)
    (target_cols : List String) (nd : Option (List String)) :
    (∀ out, create_student_features f student_col year_col target_cols nd = .ok out →
      ∀ c ∈ target_cols, ∀ fr ∈ out.featRows,
        fr.lookup (OutCol.latest c) = none ∧
        fr.lookup (OutCol.delta c) = none ∧
        fr.lookup (OutCol.slope c) = none) ∧
    (∀ t, t ∉ f.header.map Prod.fst →
      create_student_features f student_col year_col (t :: target_cols) nd =
        create_student_features f student_col year_col target_cols nd) := by
  constructor
  · intro out hok c hc fr hfr
    obtain ⟨sIdx, yIdx, h4, h5, rfl⟩ := create_ok_inv f _ _ _ _ out hok
    unfold aggOutput at hfr
    obtain ⟨s, hs, rfl⟩ := List.mem_map.mp hfr
    have hname : ∀ i, i < (dropHeader f.header target_cols).length →
        hdrName (dropHeader f.header target_cols) i ≠ c := by
      intro i hi he
      have hmem : hdrName (dropHeader f.header target_cols) i ∈
          (dropHeader f.header target_cols).map Prod.fst := hdrName_mem _ hi
      have := (mem_dropHeader_names f.header target_cols _).mp hmem
      exact this.2 (he ▸ hc)
    exact entityRow_target_none _ _ _ _ _ _ _ c
      (fun i hi => hname i ((mem_numericIdx _ _ _ _ i).mp hi).1)
      (fun i hi => hname i ((mem_allFeatIdx _ _ _ i).mp hi).1)
  · intro t ht
    have hk : keepIdx f.header (t :: target_cols) = keepIdx f.header target_cols := by
      unfold keepIdx
      apply List.filter_congr
      intro i hi
      have hilt : i < f.header.length := List.mem_range.mp hi
      have hnamem : hdrName f.header i ∈ f.header.map Prod.fst := hdrName_mem _ hilt
      have hnet : hdrName f.header i ≠ t := fun he => ht (he ▸ hnamem)
      rw [decide_eq_decide]
      simp [List.mem_cons, hnet]
    have hdh : dropHeader f.header (t :: target_cols) = dropHeader f.header target_cols := by
      unfold dropHeader
      rw [hk]
    have hdrw : dropRow f.header (t :: target_cols) = dropRow f.header target_cols := by
      funext r
      unfold dropRow
      rw [hk]
    unfold create_student_features
    rw [hdh, hdrw]

def tFrame : Frame :=
  ⟨[("sid", "int64"), ("year", "int64"), ("gpa", "float64"), ("target", "int64")],
   [[Cell.num 1, Cell.num 2020, Cell.num 3, Cell.num 0]]⟩

/-- Witness for C8 at a concrete frame: with `target_cols = ["target"]` the
aggregation succeeds, no row carries `target_latest`/`target_delta`/
`target_slope`, and adding the absent target `"nope"` changes nothing. -/
theorem target_exclusion_witness :
    (∃ out, create_student_features tFrame "sid" "year" ["target"] none = .ok out ∧
      ∀ fr ∈ out.featRows,
        fr.lookup (OutCol.latest "target") = none ∧
        fr.lookup (OutCol.delta "target") = none ∧
        fr.lookup (OutCol.slope "target") = none) ∧
    create_student_features tFrame "sid" "year" ["nope", "target"] none =
      create_student_features tFrame "sid" "year" ["target"] none := by
  constructor
  · have hok := create_ok_form tFrame "sid" "year" ["target"] none 0 1
      (by decide) (by decide) (by decide) (by decide) (by decide) (by decide)
    refine ⟨_, hok, ?_⟩
    intro fr hfr
    exact (target_exclusion tFrame "sid" "year" ["target"] none).1 _ hok "target"
      (by decide) fr hfr
  · exact (target_exclusion tFrame "sid" "year" ["target"] none).2 "nope" (by decide)

/-- C1: for an entity whose snapshots, ordered ascending by the time column
(`rs`, a time-sorted permutation of the entity's rows with pairwise-distinct
times), the `{col}_slope` output of every numeric feature column equals the
spec's closed-form OLS slope of the column's values against their rank
indices 0..n−1 (not the raw time values); `specSlope` is 0 for n < 2, and on
the spec's own examples `specSlope [1,2,3,4] = 1` and `specSlope [5] = 0`. -/
theorem slope_output_correct (f : Frame) (student_col year_col : String)
    (nd : Option (List String)) (e : Cell) (c dt : String) (i sIdx yIdx : Nat)
    (rs : List Row)
    (hwf : ∀ r ∈ f.rows, r.length = f.header.length)
    (hs : findCol f.header student_col = some sIdx)
    (hy : findCol f.header year_col = some yIdx)
    (hilt : i < f.header.length)
    (hcol : f.header.getD i ("", "") = (c, dt))
    (hdt : dt ∈ nd.getD ["float64", "int64"])
    (hcs : c ≠ student_col) (hcy : c ≠ year_col)
    (hnodup : (f.header.map Prod.fst).Nodup)
    (hrs : rs ≠ [])
    (hperm : rs.Perm (f.rows.filter (fun r => decide (cellAt sIdx r = e))))
    (hsort : rs.Sorted (rowYLt yIdx)) :
    specSlope [1, 2, 3, 4] = 1 ∧ specSlope [5] = 0 ∧
    ∃ out, create_student_features f student_col year_col [] nd = .ok out ∧
      e ∈ out.students ∧
      ∀ (j : Nat) (fr : List (OutCol × Cell)),
        out.students[j]? = some e → out.featRows[j]? = some fr →
          fr.lookup (OutCol.slope c) =
            some (Cell.num (specSlope (rs.map (fun r => (cellAt i r).toQ)))) := by
  refine ⟨by norm_num [specSlope, List.enum, List.enumFrom], rfl, ?_⟩
  have hnamec : hdrName f.header i = c := by unfold hdrName; rw [hcol]
  have hdtc : hdrDtype f.header i = dt := by unfold hdrDtype; rw [hcol]
  have hdh : dropHeader f.header [] = f.header := dropHeader_nil _
  have hrows : f.rows.map (dropRow f.header []) = f.rows := by
    have hc : ∀ r ∈ f.rows, dropRow f.header [] r = id r :=
      fun r hr => dropRow_nil f.header r (hwf r hr)
    rw [List.map_congr_left hc, List.map_id]
  have hfilne : f.rows.filter (fun r => decide (cellAt sIdx r = e)) ≠ [] := by
    intro h0
    rw [h0] at hperm
    exact hrs hperm.eq_nil
  have hrne : f.rows ≠ [] := by
    intro h0
    apply hfilne
    rw [h0]
    rfl
  obtain ⟨r0, hr0⟩ : ∃ r0, r0 ∈ f.rows.filter (fun r => decide (cellAt sIdx r = e)) := by
    cases hfil : f.rows.filter (fun r => decide (cellAt sIdx r = e)) with
    | nil => exact absurd hfil hfilne
    | cons a t => exact ⟨a, List.mem_cons_self _ _⟩
  have hr0f := List.mem_filter.mp hr0
  have himem : i ∈ numericIdx f.header student_col year_col (nd.getD ["float64", "int64"]) :=
    (mem_numericIdx _ _ _ _ i).mpr
      ⟨hilt, by rw [hdtc]; exact hdt, by rw [hnamec]; exact hcs, by rw [hnamec]; exact hcy⟩
  have hok := create_ok_form f student_col year_col [] nd sIdx yIdx
    (isEmpty_false_of_ne_nil hrne)
    (by rw [hs]; rfl) (by rw [hy]; rfl)
    (by rw [hdh]; exact hs) (by rw [hdh]; exact hy)
    (by rw [hdh]; exact isEmpty_false_of_ne_nil (List.ne_nil_of_mem himem))
  rw [hdh, hrows] at hok
  refine ⟨_, hok, ?_, ?_⟩
  · unfold aggOutput
    exact (mem_students_iff sIdx yIdx f.rows e).mpr
      ⟨r0, hr0f.1, of_decide_eq_true hr0f.2⟩
  · intro j fr hj hfr
    have hfr2 := aggOutput_featRow _ sIdx yIdx _ _ f.rows j e fr hj hfr
    rw [hfr2]
    have hu : ∀ j2 ∈ numericIdx f.header student_col year_col (nd.getD ["float64", "int64"]),
        hdrName f.header j2 = hdrName f.header i → j2 = i :=
      fun j2 hj2 he =>
        hdrName_inj f.header hnodup ((mem_numericIdx _ _ _ _ j2).mp hj2).1 hilt he
    have hlk := entityRow_lookup_slope f.header sIdx yIdx
      (numericIdx f.header student_col year_col (nd.getD ["float64", "int64"]))
      (allFeatIdx f.header student_col year_col)
      (List.insertionSort (rowLe sIdx yIdx) f.rows) e i himem hu
    rw [hnamec] at hlk
    rw [hlk]
    have hgs : ((List.insertionSort (rowLe sIdx yIdx) f.rows).filter
        (fun r => decide (cellAt sIdx r = e))).Sorted (rowLeY yIdx) :=
      grp_sorted sIdx yIdx f.rows e
    have hins : List.insertionSort (rowLeY yIdx)
        ((List.insertionSort (rowLe sIdx yIdx) f.rows).filter
          (fun r => decide (cellAt sIdx r = e))) =
        ((List.insertionSort (rowLe sIdx yIdx) f.rows).filter
          (fun r => decide (cellAt sIdx r = e))) :=
      List.Sorted.insertionSort_eq hgs
    have hge : ((List.insertionSort (rowLe sIdx yIdx) f.rows).filter
        (fun r => decide (cellAt sIdx r = e))) = rs :=
      grp_eq_of_strict yIdx _ rs ((grp_perm sIdx yIdx f.rows e).trans hperm.symm) hgs hsort
    rw [hins, hge]
    have hspec := slopeOf_eq_specSlope (rs.map (fun r => (cellAt i r).toQ))
    rw [List.length_map] at hspec
    rw [hspec]

def slopeFrame : Frame :=
  ⟨[("sid", "int64"), ("year", "int64"), ("gpa", "float64")],
   [[Cell.num 1, Cell.num 2020, Cell.num 2],
    [Cell.num 1, Cell.num 2030, Cell.num 4],
    [Cell.num 1, Cell.num 2019, Cell.num 1],
    [Cell.num 1, Cell.num 2022, Cell.num 3]]⟩

/-- Witness for C1: a scrambled single-student frame with values 1..4 over
irregular years 2019/2020/2022/2030 — the slope is computed against rank
indices, giving exactly 1. -/
theorem slope_output_correct_witness :
    ∃ out, create_student_features slopeFrame "sid" "year" [] none = .ok out ∧
      Cell.num 1 ∈ out.students ∧
      ∀ (j : Nat) (fr : List (OutCol × Cell)),
        out.students[j]? = some (Cell.num 1) → out.featRows[j]? = some fr →
          fr.lookup (OutCol.slope "gpa") = some (Cell.num 1) := by
  have h := slope_output_correct slopeFrame "sid" "year" none (Cell.num 1) "gpa"
    "float64" 2 0 1
    [[Cell.num 1, Cell.num 2019, Cell.num 1],
     [Cell.num 1, Cell.num 2020, Cell.num 2],
     [Cell.num 1, Cell.num 2022, Cell.num 3],
     [Cell.num 1, Cell.num 2030, Cell.num 4]]
    (by decide) (by decide) (by decide) (by decide) (by decide) (by decide)
    (by decide) (by decide) (by decide) (by decide) (by decide) (by decide)
  obtain ⟨h1, -, out, hok, hm, hlook⟩ := h
  refine ⟨out, hok, hm, ?_⟩
  intro j fr hj hfr
  rw [hlook j fr hj hfr]
  have hmap : (([[Cell.num 1, Cell.num 2019, Cell.num 1],
      [Cell.num 1, Cell.num 2020, Cell.num 2],
      [Cell.num 1, Cell.num 2022, Cell.num 3],
      [Cell.num 1, Cell.num 2030, Cell.num 4]] : List Row).map
        (fun r => (cellAt 2 r).toQ)) = [1, 2, 3, 4] := rfl
  rw [hmap, h1]

/-- C2: for an entity with distinct snapshot times, `{col}_delta` equals the
column's value in the row with maximum time minus its value in the row with
minimum time; an entity with exactly one observation gets delta 0.0,
slope 0.0, `num_snapshots` 1, and every `{col}_latest` equal to that single
observation's value. -/
theorem delta_output_correct (f : Frame) (student_col year_col : String)
    (nd : Option (List String)) (e : Cell) (c dt : String) (i sIdx yIdx : Nat)
    (hwf : ∀ r ∈ f.rows, r.length = f.header.length)
    (hs : findCol f.header student_col = some sIdx)
    (hy : findCol f.header year_col = some yIdx)
    (hilt : i < f.header.length)
    (hcol : f.header.getD i ("", "") = (c, dt))
    (hdt : dt ∈ nd.getD ["float64", "int64"])
    (hcs : c ≠ student_col) (hcy : c ≠ year_col)
    (hnodup : (f.header.map Prod.fst).Nodup) :
    (∀ r0 r1 : Row,
      r0 ∈ f.rows.filter (fun r => decide (cellAt sIdx r = e)) →
      r1 ∈ f.rows.filter (fun r => decide (cellAt sIdx r = e)) →
      (∀ r ∈ f.rows.filter (fun r => decide (cellAt sIdx r = e)), r ≠ r0 →
        cellLt (cellAt yIdx r0) (cellAt yIdx r)) →
      (∀ r ∈ f.rows.filter (fun r => decide (cellAt sIdx r = e)), r ≠ r1 →
        cellLt (cellAt yIdx r) (cellAt yIdx r1)) →
      ∃ out, create_student_features f student_col year_col [] nd = .ok out ∧
        e ∈ out.students ∧
        ∀ (j : Nat) (fr : List (OutCol × Cell)),
          out.students[j]? = some e → out.featRows[j]? = some fr →
            fr.lookup (OutCol.delta c) =
              some (Cell.num ((cellAt i r1).toQ - (cellAt i r0).toQ))) ∧
    (∀ r : Row, f.rows.filter (fun r2 => decide (cellAt sIdx r2 = e)) = [r] →
      ∃ out, create_student_features f student_col year_col [] nd = .ok out ∧
        e ∈ out.students ∧
        ∀ (j : Nat) (fr : List (OutCol × Cell)),
          out.students[j]? = some e → out.featRows[j]? = some fr →
            fr.lookup (OutCol.delta c) = some (Cell.num 0) ∧
            fr.lookup (OutCol.slope c) = some (Cell.num 0) ∧
            fr.lookup OutCol.numSnapshots = some (Cell.num 1) ∧
            ∀ (i2 : Nat) (c2 d2 : String), i2 < f.header.length →
              f.header.getD i2 ("", "") = (c2, d2) → c2 ≠ student_col →
              c2 ≠ year_col →
              fr.lookup (OutCol.latest c2) = some (cellAt i2 r)) := by
  have hnamec : hdrName f.header i = c := by unfold hdrName; rw [hcol]
  have hdtc : hdrDtype f.header i = dt := by unfold hdrDtype; rw [hcol]
  have hdh : dropHeader f.header [] = f.header := dropHeader_nil _
  have hrows : f.rows.map (dropRow f.header []) = f.rows := by
    have hc : ∀ r ∈ f.rows, dropRow f.header [] r = id r :=
      fun r hr => dropRow_nil f.header r (hwf r hr)
    rw [List.map_congr_left hc, List.map_id]
  have himem : i ∈ numericIdx f.header student_col year_col (nd.getD ["float64", "int64"]) :=
    (mem_numericIdx _ _ _ _ i).mpr
      ⟨hilt, by rw [hdtc]; exact hdt, by rw [hnamec]; exact hcs, by rw [hnamec]; exact hcy⟩
  have hu : ∀ j2 ∈ numericIdx f.header student_col year_col (nd.getD ["float64", "int64"]),
      hdrName f.header j2 = hdrName f.header i → j2 = i :=
    fun j2 hj2 he =>
      hdrName_inj f.header hnodup ((mem_numericIdx _ _ _ _ j2).mp hj2).1 hilt he
  have hgend : ∀ r0, r0 ∈ f.rows.filter (fun r => decide (cellAt sIdx r = e)) →
      create_student_features f student_col year_col [] nd =
        .ok (aggOutput f.header sIdx yIdx
          (numericIdx f.header student_col year_col (nd.getD ["float64", "int64"]))
          (allFeatIdx f.header student_col year_col) f.rows) := by
    intro r0 hr0
    have hrne : f.rows ≠ [] :=
      List.ne_nil_of_mem (List.mem_filter.mp hr0).1
    have hok := create_ok_form f student_col year_col [] nd sIdx yIdx
      (isEmpty_false_of_ne_nil hrne)
      (by rw [hs]; rfl) (by rw [hy]; rfl)
      (by rw [hdh]; exact hs) (by rw [hdh]; exact hy)
      (by rw [hdh]; exact isEmpty_false_of_ne_nil (List.ne_nil_of_mem himem))
    rw [hdh, hrows] at hok
    exact hok
  have hmemst : ∀ r0, r0 ∈ f.rows.filter (fun r => decide (cellAt sIdx r = e)) →
      e ∈ (aggOutput f.header sIdx yIdx
        (numericIdx f.header student_col year_col (nd.getD ["float64", "int64"]))
        (allFeatIdx f.header student_col year_col) f.rows).students := by
    intro r0 hr0
    have hr0f := List.mem_filter.mp hr0
    unfold aggOutput
    exact (mem_students_iff sIdx yIdx f.rows e).mpr
      ⟨r0, hr0f.1, of_decide_eq_true hr0f.2⟩
  constructor
  · intro r0 r1 hr0 hr1 hmin hmax
    refine ⟨_, hgend r0 hr0, hmemst r0 hr0, ?_⟩
    intro j fr hj hfr
    have hfr2 := aggOutput_featRow _ sIdx yIdx _ _ f.rows j e fr hj hfr
    rw [hfr2]
    have hlk := entityRow_lookup_delta f.header sIdx yIdx
      (numericIdx f.header student_col year_col (nd.getD ["float64", "int64"]))
      (allFeatIdx f.header student_col year_col)
      (List.insertionSort (rowLe sIdx yIdx) f.rows) e i himem hu
    rw [hnamec] at hlk
    rw [hlk]
    have hgperm := grp_perm sIdx yIdx f.rows e
    have hgs := grp_sorted sIdx yIdx f.rows e
    have hhead : ((List.insertionSort (rowLe sIdx yIdx) f.rows).filter
        (fun r => decide (cellAt sIdx r = e))).headD [] = r0 :=
      headD_eq_of_min yIdx _ r0 hgs (hgperm.mem_iff.mpr hr0)
        (fun r hr hne => hmin r (hgperm.mem_iff.mp hr) hne)
    have hlast : ((List.insertionSort (rowLe sIdx yIdx) f.rows).filter
        (fun r => decide (cellAt sIdx r = e))).getLastD [] = r1 :=
      getLastD_eq_of_max yIdx _ r1 hgs (hgperm.mem_iff.mpr hr1)
        (fun r hr hne => hmax r (hgperm.mem_iff.mp hr) hne)
    rw [hhead, hlast]
  · intro r hsingle
    have hrmem : r ∈ f.rows.filter (fun r2 => decide (cellAt sIdx r2 = e)) := by
      rw [hsingle]
      exact List.mem_cons_self _ _
    refine ⟨_, hgend r hrmem, hmemst r hrmem, ?_⟩
    intro j fr hj hfr
    have hfr2 := aggOutput_featRow _ sIdx yIdx _ _ f.rows j e fr hj hfr
    rw [hfr2]
    have hgperm := grp_perm sIdx yIdx f.rows e
    have hgrp1 : ((List.insertionSort (rowLe sIdx yIdx) f.rows).filter
        (fun r2 => decide (cellAt sIdx r2 = e))) = [r] := by
      apply List.perm_singleton.mp
      rw [← hsingle]
      exact hgperm
    refine ⟨?_, ?_, ?_, ?_⟩
    · have hlk := entityRow_lookup_delta f.header sIdx yIdx
        (numericIdx f.header student_col year_col (nd.getD ["float64", "int64"]))
        (allFeatIdx f.header student_col year_col)
        (List.insertionSort (rowLe sIdx yIdx) f.rows) e i himem hu
      rw [hnamec] at hlk
      rw [hlk, hgrp1]
      have hz : (cellAt i ([r].getLastD [])).toQ - (cellAt i ([r].headD [])).toQ = 0 := by
        simp [sub_self]
      rw [hz]
    · have hlk := entityRow_lookup_slope f.header sIdx yIdx
        (numericIdx f.header student_col year_col (nd.getD ["float64", "int64"]))
        (allFeatIdx f.header student_col year_col)
        (List.insertionSort (rowLe sIdx yIdx) f.rows) e i himem hu
      rw [hnamec] at hlk
      rw [hlk, hgrp1]
      rfl
    · have hlk := entityRow_lookup_snapshots f.header sIdx yIdx
        (numericIdx f.header student_col year_col (nd.getD ["float64", "int64"]))
        (allFeatIdx f.header student_col year_col)
        (List.insertionSort (rowLe sIdx yIdx) f.rows) e
      rw [hlk, hgrp1]
      rfl
    · intro i2 c2 d2 hilt2 hcol2 hcs2 hcy2
      have hnamec2 : hdrName f.header i2 = c2 := by unfold hdrName; rw [hcol2]
      have himem2 : i2 ∈ allFeatIdx f.header student_col year_col :=
        (mem_allFeatIdx _ _ _ i2).mpr
          ⟨hilt2, by rw [hnamec2]; exact hcs2, by rw [hnamec2]; exact hcy2⟩
      have hu2 : ∀ j2 ∈ allFeatIdx f.header student_col year_col,
          hdrName f.header j2 = hdrName f.header i2 → j2 = i2 :=
        fun j2 hj2 he =>
          hdrName_inj f.header hnodup ((mem_allFeatIdx _ _ _ j2).mp hj2).1 hilt2 he
      have hlk := entityRow_lookup_latest f.header sIdx yIdx
        (numericIdx f.header student_col year_col (nd.getD ["float64", "int64"]))
        (allFeatIdx f.header student_col year_col)
        (List.insertionSort (rowLe sIdx yIdx) f.rows) e i2 himem2 hu2
      rw [hnamec2] at hlk
      rw [hlk, hgrp1]
      rfl

def deltaFrame : Frame :=
  ⟨[("sid", "int64"), ("year", "int64"), ("gpa", "float64")],
   [[Cell.num 1, Cell.num 2021, Cell.num 12],
    [Cell.num 2, Cell.num 2020, Cell.num 7],
    [Cell.num 1, Cell.num 2020, Cell.num 10],
    [Cell.num 1, Cell.num 2022, Cell.num 15]]⟩

/-- Witness for C2: student 1 has snapshots (2020,10), (2021,12), (2022,15),
so `gpa_delta = 15 − 10 = 5`; student 2 has a single snapshot (2020,7), so
delta 0, slope 0, one snapshot, and `gpa_latest = 7`. -/
theorem delta_output_correct_witness :
    (∃ out, create_student_features deltaFrame "sid" "year" [] none = .ok out ∧
      Cell.num 1 ∈ out.students ∧
      ∀ (j : Nat) (fr : List (OutCol × Cell)),
        out.students[j]? = some (Cell.num 1) → out.featRows[j]? = some fr →
          fr.lookup (OutCol.delta "gpa") = some (Cell.num 5)) ∧
    (∃ out, create_student_features deltaFrame "sid" "year" [] none = .ok out ∧
      Cell.num 2 ∈ out.students ∧
      ∀ (j : Nat) (fr : List (OutCol × Cell)),
        out.students[j]? = some (Cell.num 2) → out.featRows[j]? = some fr →
          fr.lookup (OutCol.delta "gpa") = some (Cell.num 0) ∧
          fr.lookup (OutCol.slope "gpa") = some (Cell.num 0) ∧
          fr.lookup OutCol.numSnapshots = some (Cell.num 1) ∧
          fr.lookup (OutCol.latest "gpa") = some (Cell.num 7)) := by
  constructor
  · have h := (delta_output_correct deltaFrame "sid" "year" none (Cell.num 1) "gpa"
      "float64" 2 0 1 (by decide) (by decide) (by decide) (by decide) (by decide)
      (by decide) (by decide) (by decide) (by decide)).1
      [Cell.num 1, Cell.num 2020, Cell.num 10]
      [Cell.num 1, Cell.num 2022, Cell.num 15]
      (by decide) (by decide) (by decide) (by decide)
    obtain ⟨out, hok, hm, hlook⟩ := h
    refine ⟨out, hok, hm, ?_⟩
    intro j fr hj hfr
    rw [hlook j fr hj hfr]
    have hv : (cellAt 2 ([Cell.num 1, Cell.num 2022, Cell.num 15] : Row)).toQ -
        (cellAt 2 ([Cell.num 1, Cell.num 2020, Cell.num 10] : Row)).toQ = 5 := by
      show (15 : ℚ) - 10 = 5
      norm_num
    rw [hv]
  · have h := (delta_output_correct deltaFrame "sid" "year" none (Cell.num 2) "gpa"
      "float64" 2 0 1 (by decide) (by decide) (by decide) (by decide) (by decide)
      (by decide) (by decide) (by decide) (by decide)).2
      [Cell.num 2, Cell.num 2020, Cell.num 7] (by decide)
    obtain ⟨out, hok, hm, hlook⟩ := h
    refine ⟨out, hok, hm, ?_⟩
    intro j fr hj hfr
    obtain ⟨hd, hsl, hns, hlat⟩ := hlook j fr hj hfr
    exact ⟨hd, hsl, hns, hlat 2 "gpa" "float64" (by decide) (by decide)
      (by decide) (by decide)⟩

end AICoach
